import Mathlib

/-!
Shallow embedding of the Active_Student_ETL reconciliation pipeline.

The embedding models the Python sources of the repository:
  * `utils.py` — field cleaning, unique-key generation, record validation;
  * `database.py` — insert / update / history / inactivation against the
    `active_student_data` and `student_data_history` tables;
  * `main.py` — the per-batch reconciliation loop and final inactivation sweep;
  * `sync_students.py` and `active_student_data_yearly.py` — the divergent
    normalizer / key-generation variants living in those modules.

Python values that can flow through a record field are modelled by `PyVal`
(string, int, or Python `None`).  A Python function that can raise an
uncaught exception (e.g. `re.sub` applied to `None` raises `TypeError`) is
modelled as returning `Except Unit α`, where `Except.error ()` marks the
raise; an uncaught raise aborts the whole run before the final commit, so a
pass that raises has no observable effect.  The MySQL table is modelled as a
list of rows (the `unique_key` column carries a uniqueness constraint, so
well-formed states have pairwise-distinct keys), and the append-only
`student_data_history` table as a list of history entries.
-/

/-- A Python value that can appear in a raw student record field:
a string, an int, or `None`. -/
inductive PyVal where
  | str (s : String)
  | int (n : Int)
  | none
deriving DecidableEq, Repr

/-- Python truthiness of a `PyVal`: empty string, `0` and `None` are falsy. -/
def pyTruthy : PyVal → Bool
  | .str s => s != ""
  | .int n => n != 0
  | PyVal.none => false

/-- Python `str()` applied to a `PyVal` (`str(None) = "None"`). -/
def pyStr : PyVal → String
  | .str s => s
  | .int n => toString n
  | PyVal.none => "None"

/-- The value stored when a `PyVal` is written into a VARCHAR/TEXT column:
`None` becomes SQL NULL, an int is coerced to its decimal string. -/
def storeVal : PyVal → Option String
  | .str s => some s
  | .int n => some (toString n)
  | PyVal.none => Option.none

/-- Python `str()` applied to a value fetched from a nullable column
(`None` or a string). -/
def cmpStr (o : Option String) : String := o.getD "None"

/-- Python `\s` (ASCII range, which covers the data this pipeline sees). -/
def isPySpace (c : Char) : Bool := c.isWhitespace

/-- Python `\w` (ASCII range). -/
def isPyWordChar (c : Char) : Bool := c.isAlphanum || c == '_'

/-- `str.strip()`: drop leading and trailing whitespace. -/
def pyStrip (s : String) : String :=
  ⟨(((s.data.dropWhile isPySpace).reverse).dropWhile isPySpace).reverse⟩

/-- `str.upper()` (ASCII). -/
def pyUpper (s : String) : String := ⟨s.data.map Char.toUpper⟩

/-- Worker for `re.sub(r"\s+", " ", s)`: each maximal whitespace run becomes
one space.  The boolean records whether the previous character was part of a
whitespace run. -/
def collapseWsGo : Bool → List Char → List Char
  | _, [] => []
  | inWs, c :: rest =>
    if isPySpace c then
      if inWs then collapseWsGo true rest
      else ' ' :: collapseWsGo true rest
    else c :: collapseWsGo false rest

/-- `re.sub(r"\s+", " ", s)`. -/
def collapseWs (s : String) : String := ⟨collapseWsGo false s.data⟩

/-- Worker for `str.title()`: the first cased character of each run of cased
characters is uppercased, the rest are lowercased.  The boolean records
whether the previous character was cased. -/
def pyTitleGo : Bool → List Char → List Char
  | _, [] => []
  | prevCased, c :: rest =>
    if c.isAlpha then
      (if prevCased then c.toLower else c.toUpper) :: pyTitleGo true rest
    else c :: pyTitleGo false rest

/-- `str.title()`. -/
def pyTitle (s : String) : String := ⟨pyTitleGo false s.data⟩

/-- `re.match(r"GRADE (\w+)", s)` at the start of `s` (case-sensitive):
returns `group(1)` on success. -/
def gradeGroupCS (s : String) : Option String :=
  if s.data.take 6 = "GRADE ".data then
    let g := (s.data.drop 6).takeWhile isPyWordChar
    if g = [] then Option.none else some ⟨g⟩
  else Option.none

/-- `re.match(r"GRADE (\w+)", s, re.IGNORECASE)`: as `gradeGroupCS` but the
literal `GRADE ` prefix is matched case-insensitively. -/
def gradeGroupCI (s : String) : Option String :=
  if (s.data.take 6).map Char.toUpper = "GRADE ".data then
    let g := (s.data.drop 6).takeWhile isPyWordChar
    if g = [] then Option.none else some ⟨g⟩
  else Option.none

/-- `re.search(r"[A-Za-z]+", s)`: the first maximal alphabetic run. -/
def firstAlphaRun : List Char → Option (List Char)
  | [] => Option.none
  | c :: rest =>
    if c.isAlpha then some (c :: rest.takeWhile Char.isAlpha)
    else firstAlphaRun rest

namespace Utils

/-- `utils.clean_student_name` on a string argument:
`re.sub(r"\s+", " ", value).strip().title()`. -/
def clean_student_name (value : String) : String :=
  pyTitle (pyStrip (collapseWs value))

/-- The `grade_mapping` dict of `utils.convert_grade_name`
(`dict.get` as a partial lookup). -/
def grade_mapping : String → Option String
  | "Jr.KG" => some "JR.KG"
  | "Sr.KG" => some "SR.KG"
  | "I" => some "1"
  | "II" => some "2"
  | "III" => some "3"
  | "IV" => some "4"
  | "V" => some "5"
  | "VI" => some "6"
  | "VII" => some "7"
  | "VIII" => some "8"
  | "IX" => some "9"
  | "X" => some "10"
  | _ => Option.none

/-- `utils.convert_grade_name` on a string argument: a case-insensitive
`GRADE <token>` prefix match maps the uppercased token through
`grade_mapping`; otherwise the trimmed-and-uppercased value is looked up in
`grade_mapping` with the trimmed value as the default. -/
def convert_grade_name (value : String) : String :=
  match gradeGroupCI value with
  | some g => "GRADE " ++ ((grade_mapping (pyUpper g)).getD (pyUpper g))
  | Option.none => (grade_mapping (pyUpper (pyStrip value))).getD (pyStrip value)

/-- `utils.clean_gender` on a string argument: falsy input gives `None`;
otherwise trim + uppercase, map `MALE ↦ "M"`, `FEMALE ↦ "F"`, anything else
to `None`. -/
def clean_gender (value : String) : Option String :=
  if value != "" then
    let v := pyUpper (pyStrip value)
    if v = "MALE" then some "M" else if v = "FEMALE" then some "F" else Option.none
  else Option.none

/-- `utils.extract_division` on a string argument: falsy input gives `None`;
otherwise the first alphabetic run uppercased, defaulting to the
trimmed-and-uppercased value when no alphabetic character occurs. -/
def extract_division (value : String) : Option String :=
  if value != "" then
    match firstAlphaRun value.data with
    | some run => some (pyUpper ⟨run⟩)
    | Option.none => some (pyUpper (pyStrip value))
  else Option.none

/-- `utils.clean_student_name` on an arbitrary Python value: `re.sub` raises
`TypeError` on a non-string argument (including `None`). -/
def clean_student_namePy : PyVal → Except Unit String
  | .str s => .ok (clean_student_name s)
  | _ => .error ()

/-- `utils.convert_grade_name` on an arbitrary Python value: `re.match`
raises `TypeError` on a non-string argument (including `None`). -/
def convert_grade_namePy : PyVal → Except Unit String
  | .str s => .ok (convert_grade_name s)
  | _ => .error ()

/-- `utils.clean_gender` on an arbitrary Python value: falsy values
(`None`, `0`, `""`) give `None`; a truthy non-string raises
(`value.strip()` has no meaning on an int). -/
def clean_genderPy : PyVal → Except Unit (Option String)
  | .str s => .ok (clean_gender s)
  | .int n => if n = 0 then .ok Option.none else .error ()
  | PyVal.none => .ok Option.none

/-- `utils.extract_division` on an arbitrary Python value: falsy values give
`None`; a truthy non-string raises inside `re.search`. -/
def extract_divisionPy : PyVal → Except Unit (Option String)
  | .str s => .ok (extract_division s)
  | .int n => if n = 0 then .ok Option.none else .error ()
  | PyVal.none => .ok Option.none

/-- `utils.trim_string`: strip a string value, return any other value
unchanged. -/
def trim_string : PyVal → PyVal
  | .str s => .str (pyStrip s)
  | v => v

end Utils

namespace SyncStudents

/-- The `roman_to_number` dict shared by `sync_students.py`,
`active_student_monthly.py` and `active_student_data_yearly.py`. -/
def roman_to_number : String → Option String
  | "I" => some "1"
  | "II" => some "2"
  | "III" => some "3"
  | "IV" => some "4"
  | "V" => some "5"
  | "VI" => some "6"
  | "VII" => some "7"
  | "VIII" => some "8"
  | "IX" => some "9"
  | "X" => some "10"
  | _ => Option.none

/-- `sync_students.convert_grade_name` on a truthy string: strip; literal
`Jr.KG`/`Sr.KG` special cases; else match `GRADE (\w+)` against the
uppercased value and map the token through `roman_to_number`; else return
the uppercased value. -/
def convert_grade_core (s : String) : String :=
  let v := pyStrip s
  if v = "Jr.KG" then "JR.KG"
  else if v = "Sr.KG" then "SR.KG"
  else
    match gradeGroupCS (pyUpper v) with
    | some roman => "GRADE " ++ ((roman_to_number (pyUpper roman)).getD roman)
    | Option.none => pyUpper v

/-- `sync_students.convert_grade_name` on a string argument
(falsy input returns `None`). -/
def convert_grade_name (value : String) : Option String :=
  if value != "" then some (convert_grade_core value) else Option.none

/-- `sync_students.convert_grade_name` on an arbitrary Python value:
falsy values give `None`, a truthy non-string raises at `value.strip()`. -/
def convert_grade_namePy : PyVal → Except Unit (Option String)
  | .str s => .ok (convert_grade_name s)
  | .int n => if n = 0 then .ok Option.none else .error ()
  | PyVal.none => .ok Option.none

/-- `sync_students.generate_unique_key`: built from `school_name`
(whitespace-collapsed, stripped, uppercased — `re.sub` raises on a
non-string), `str(student_id)` stripped and uppercased, and the stripped
academic year.  `grade_name` is deliberately not part of the key. -/
def generate_unique_key (school_name student_id : PyVal) (academic_year : String) :
    Except Unit String :=
  match school_name with
  | .str s =>
      .ok (pyUpper (pyStrip (collapseWs s)) ++ "_" ++
           pyUpper (pyStrip (pyStr student_id)) ++ "_" ++ pyStrip academic_year)
  | _ => .error ()

end SyncStudents

namespace Yearly

/-- `active_student_data_yearly.extract_division` on a string argument:
first alphabetic run (not uppercased), else the value unchanged.  There is
no falsy guard in this variant. -/
def extract_division (value : String) : String :=
  match firstAlphaRun value.data with
  | some run => ⟨run⟩
  | Option.none => value

/-- `active_student_data_yearly.extract_division` on an arbitrary Python
value: `re.search` raises `TypeError` on any non-string argument,
including `None`. -/
def extract_divisionPy : PyVal → Except Unit String
  | .str s => .ok (extract_division s)
  | _ => .error ()

end Yearly

/-- A raw student record as deserialized from the upstream API: the seven
fields the pipeline reads, each either absent (key missing from the dict)
or holding a Python value.  `Option.none` means the key is absent;
`some PyVal.none` means the key is present with value `None`. -/
structure RawRecord where
  school_name : Option PyVal
  status : Option PyVal
  grade_name : Option PyVal
  student_name : Option PyVal
  student_id : Option PyVal
  gender : Option PyVal
  division_name : Option PyVal
deriving DecidableEq, Repr

/-- `record.get(field)`: Python `dict.get` returns `None` for a missing
key. -/
def pyGet (o : Option PyVal) : PyVal := o.getD PyVal.none

/-- Field lookup by name for the seven modelled fields. -/
def RawRecord.get (r : RawRecord) : String → Option PyVal
  | "school_name" => r.school_name
  | "status" => r.status
  | "grade_name" => r.grade_name
  | "student_name" => r.student_name
  | "student_id" => r.student_id
  | "gender" => r.gender
  | "division_name" => r.division_name
  | _ => Option.none

namespace Utils

/-- The `required_fields` list of `utils.validate_student_record`. -/
def required_fields : List String :=
  ["school_name", "status", "grade_name", "student_name", "student_id",
   "gender", "division_name"]

/-- One required-field check of `utils.validate_student_record`:
`field in record and trim_string(record[field])` is truthy. -/
def fieldPresentTruthy (r : RawRecord) (f : String) : Bool :=
  match r.get f with
  | Option.none => false
  | some v => pyTruthy (trim_string v)

/-- `isinstance(value, (str, int))`. -/
def isStrOrInt : PyVal → Bool
  | .str _ => true
  | .int _ => true
  | PyVal.none => false

/-- `utils.validate_student_record`: `some msg` models the
`(False, msg)` return, `Option.none` models `(True, record)`. -/
def validate_student_record (r : RawRecord) : Option String :=
  match required_fields.find? (fun f => !(fieldPresentTruthy r f)) with
  | some f => some ("Missing or empty required field: '" ++ f ++ "'")
  | Option.none =>
      if !(isStrOrInt (pyGet (r.get "student_id"))) then
        some "Invalid 'student_id' type, must be string or int."
      else Option.none

end Utils

/-- A record after `main.py`'s per-field trimming and cleaning
(`processed_record`): every key is present; `grade_name` and `student_name`
hold the (string) cleaner outputs; `gender` and `division_name` hold the
cleaner outputs, which may be Python `None`. -/
structure ProcRecord where
  school_name : PyVal
  status : PyVal
  grade_name : PyVal
  student_name : PyVal
  student_id : PyVal
  gender : PyVal
  division_name : PyVal
deriving DecidableEq, Repr

/-- Re-embed an optional cleaner result as the Python value stored in the
processed record. -/
def optPy : Option String → PyVal
  | some s => .str s
  | Option.none => PyVal.none

namespace Utils

/-- `utils.generate_unique_key` as called from `main.py` on the processed
record: each component is `str(...)` of the field, stripped; the grade is
re-run through `convert_grade_name` and the converted grade is part of the
key. -/
def generate_unique_key (record : ProcRecord) (academic_year : String) : String :=
  let school_name := pyStrip (pyStr record.school_name)
  let student_id := pyStrip (pyStr record.student_id)
  let grade_name := pyStrip (pyStr record.grade_name)
  let converted_grade := convert_grade_name grade_name
  school_name ++ "_" ++ student_id ++ "_" ++ academic_year ++ "_" ++ converted_grade

end Utils

namespace MainPy

/-- Lines 93–101 of `main.py`: trim every field, then clean grade, name,
gender and division in that order.  A cleaner raising `TypeError`
(e.g. grade present as a truthy int) aborts the run. -/
def process_record (r : RawRecord) : Except Unit ProcRecord := do
  let t : Option PyVal → PyVal := fun o => Utils.trim_string (pyGet o)
  let grade ← Utils.convert_grade_namePy (t r.grade_name)
  let name ← Utils.clean_student_namePy (t r.student_name)
  let gender ← Utils.clean_genderPy (t r.gender)
  let division ← Utils.extract_divisionPy (t r.division_name)
  Except.ok
    { school_name := t r.school_name
      status := t r.status
      grade_name := PyVal.str grade
      student_name := PyVal.str name
      student_id := t r.student_id
      gender := optPy gender
      division_name := optPy division }

end MainPy

namespace Database

/-- One row of the `active_student_data` table.  Nullable columns are
`Option String`; `academic_year`, `unique_key` and `timestamp` are always
written with non-NULL values by this pipeline. -/
structure Row where
  school_name : Option String
  status : Option String
  grade_name : Option String
  student_name : Option String
  student_id : Option String
  gender : Option String
  division_name : Option String
  academic_year : String
  unique_key : String
  timestamp : String
deriving DecidableEq, Repr

/-- One row of the append-only `student_data_history` table. -/
structure HistoryEntry where
  unique_key : String
  change_type : String
  field_changed : Option String
  old_value : Option String
  new_value : Option String
  change_timestamp : String
deriving DecidableEq, Repr

/-- The persistent store: the student table plus the history table. -/
structure Db where
  rows : List Row
  history : List HistoryEntry
deriving DecidableEq, Repr

/-- `SELECT ... WHERE unique_key = k` with `fetchone()`: the first row with
the given key (unique when the key constraint holds). -/
def rowForD (rows : List Row) (k : String) : Option Row :=
  rows.find? (fun r => r.unique_key == k)

/-- `database.fetch_existing_keys`: the set of `unique_key` values of rows
with the given academic year (`set(...)` — modelled as a deduplicated
list). -/
def fetch_existing_keys (db : Db) (academic_year : String) : List String :=
  ((db.rows.filter (fun r => r.academic_year == academic_year)).map
    (fun r => r.unique_key)).dedup

/-- The five mutable columns fetched by
`database.get_current_record_details`. -/
structure CurrentDetails where
  status : Option String
  grade_name : Option String
  student_name : Option String
  gender : Option String
  division_name : Option String
deriving DecidableEq, Repr

/-- Project a table row to its five mutable columns. -/
def rowDetails (r : Row) : CurrentDetails :=
  ⟨r.status, r.grade_name, r.student_name, r.gender, r.division_name⟩

/-- `database.get_current_record_details`. -/
def get_current_record_details (db : Db) (unique_key : String) :
    Option CurrentDetails :=
  (rowForD db.rows unique_key).map rowDetails

/-- `database.log_history`: append one row to `student_data_history`. -/
def log_history (db : Db) (unique_key change_type : String)
    (field_changed old_value new_value : Option String) (ts : String) : Db :=
  { db with history :=
      db.history ++ [⟨unique_key, change_type, field_changed, old_value, new_value, ts⟩] }

/-- One entry of the `fields_to_check` dict of
`database.update_existing_record`, paired with the stored old value, the
`str(new_val)` comparison image, and the value the new side would store. -/
structure FieldCheck where
  field : String
  old_value : Option String
  new_cmp : String
  new_store : Option String
deriving DecidableEq, Repr

/-- The `fields_to_check` comparison list of
`database.update_existing_record`, in the dict's insertion order. -/
def fields_to_check (current : CurrentDetails) (new_status : PyVal)
    (new_grade new_name : String) (new_gender : PyVal)
    (new_div : Option String) : List FieldCheck :=
  [⟨"status", current.status, pyStr new_status, storeVal new_status⟩,
   ⟨"grade_name", current.grade_name, new_grade, some new_grade⟩,
   ⟨"student_name", current.student_name, new_name, some new_name⟩,
   ⟨"gender", current.gender, pyStr new_gender, storeVal new_gender⟩,
   ⟨"division_name", current.division_name, cmpStr new_div, new_div⟩]

/-- The fields for which `str(old_val) != str(new_val)` — exactly the
fields `update_existing_record` logs as UPDATE history entries. -/
def changed_fields (current : CurrentDetails) (new_status : PyVal)
    (new_grade new_name : String) (new_gender : PyVal)
    (new_div : Option String) : List FieldCheck :=
  (fields_to_check current new_status new_grade new_name new_gender new_div).filter
    (fun fc => cmpStr fc.old_value != fc.new_cmp)

/-- `database.update_existing_record`: fetch the current row (skip when
absent), clean the incoming values, log one UPDATE history entry per
changed field, and execute the UPDATE statement only when some field
changed. -/
def update_existing_record (db : Db) (record : ProcRecord)
    (unique_key ts : String) : Except Unit Db :=
  match get_current_record_details db unique_key with
  | Option.none => .ok db
  | some current => do
      let new_status := Utils.trim_string record.status
      let new_grade ← Utils.convert_grade_namePy record.grade_name
      let new_name ← Utils.clean_student_namePy record.student_name
      let new_gender := record.gender
      let new_div ← Utils.extract_divisionPy record.division_name
      let changes := changed_fields current new_status new_grade new_name new_gender new_div
      let db1 := changes.foldl
        (fun d fc => log_history d unique_key "UPDATE" (some fc.field) fc.old_value fc.new_store ts) db
      if changes = [] then .ok db1
      else
        .ok { db1 with rows := db1.rows.map (fun r =>
          if r.unique_key == unique_key then
            { r with status := storeVal new_status
                     grade_name := some new_grade
                     student_name := some new_name
                     gender := storeVal new_gender
                     division_name := new_div
                     timestamp := ts }
          else r) }

/-- `database.insert_new_record`: clean the incoming values, execute the
INSERT (a duplicate `unique_key` raises MySQL error 1062, which is caught
and turns the call into a no-op), then log one INSERT history entry. -/
def insert_new_record (db : Db) (record : ProcRecord)
    (unique_key academic_year ts : String) : Except Unit Db := do
  let cleaned_school_name := Utils.trim_string record.school_name
  let cleaned_status := Utils.trim_string record.status
  let converted_grade ← Utils.convert_grade_namePy record.grade_name
  let cleaned_student_name ← Utils.clean_student_namePy record.student_name
  let cleaned_student_id := Utils.trim_string record.student_id
  let cleaned_gender := record.gender
  let extracted_division ← Utils.extract_divisionPy record.division_name
  if (rowForD db.rows unique_key).isSome then
    .ok db
  else
    let row : Row :=
      { school_name := storeVal cleaned_school_name
        status := storeVal cleaned_status
        grade_name := some converted_grade
        student_name := some cleaned_student_name
        student_id := storeVal cleaned_student_id
        gender := storeVal cleaned_gender
        division_name := extracted_division
        academic_year := academic_year
        unique_key := unique_key
        timestamp := ts }
    .ok (log_history { db with rows := db.rows ++ [row] }
      unique_key "INSERT" (some "New Record") Option.none (some "Initial Insertion") ts)

/-- The SQL predicate `status != 'Inactive'` under three-valued logic:
a NULL status never matches. -/
def sqlNeInactive : Option String → Bool
  | some st => st != "Inactive"
  | Option.none => false

/-- One iteration of the loop in `database.mark_records_as_inactive`:
fetch the row's status; when the Python check
`current_status and current_status[0] != 'Inactive'` passes, execute
`UPDATE ... SET status='Inactive' WHERE unique_key=%s AND status !=
'Inactive'` and, when `rowcount > 0`, log one INACTIVATE history entry
carrying the fetched status as the old value. -/
def mark_one_inactive (ts : String) (db : Db) (unique_key : String) : Db :=
  match rowForD db.rows unique_key with
  | Option.none => db
  | some row =>
      if row.status ≠ some "Inactive" then
        let newRows := db.rows.map (fun r =>
          if r.unique_key == unique_key && sqlNeInactive r.status then
            { r with status := some "Inactive", timestamp := ts }
          else r)
        if db.rows.any (fun r => r.unique_key == unique_key && sqlNeInactive r.status) then
          log_history { db with rows := newRows }
            unique_key "INACTIVATE" (some "status") row.status (some "Inactive") ts
        else { db with rows := newRows }
      else db

/-- `database.mark_records_as_inactive`: the keys present in the database
snapshot but absent from the API batch are swept one by one. -/
def mark_records_as_inactive (db : Db) (existing_keys api_keys : List String)
    (ts : String) : Db :=
  let inactive_keys := existing_keys.filter (fun k => !(api_keys.contains k))
  inactive_keys.foldl (mark_one_inactive ts) db

end Database

namespace MainPy

open Database

/-- The mutable state of `main.py`'s reconciliation loop. -/
structure LoopState where
  db : Db
  existing_keys : List String
  processed_api_keys : List String
  new_records_count : Nat
  updated_records_count : Nat
  skipped_invalid_records_count : Nat
deriving Repr

/-- `set.add` on the modelled key set. -/
def addKey (l : List String) (k : String) : List String :=
  if l.contains k then l else l ++ [k]

/-- `set.discard` on the modelled key set. -/
def discardKey (l : List String) (k : String) : List String :=
  l.filter (fun x => x != k)

/-- One iteration of `main.py`'s loop over the API records: validate (on
failure count and skip), clean, compute the unique key, record it as seen,
then insert when the key is not in the remaining existing-key set, else
update and discard the key from that set. -/
def process_one (academic_year ts : String) (st : LoopState) (record : RawRecord) :
    Except Unit LoopState :=
  match Utils.validate_student_record record with
  | some _err =>
      .ok { st with skipped_invalid_records_count := st.skipped_invalid_records_count + 1 }
  | Option.none => do
      let processed ← process_record record
      let unique_key := Utils.generate_unique_key processed academic_year
      let seen := addKey st.processed_api_keys unique_key
      if !(st.existing_keys.contains unique_key) then do
        let db ← insert_new_record st.db processed unique_key academic_year ts
        .ok { st with db := db, processed_api_keys := seen,
                      new_records_count := st.new_records_count + 1 }
      else do
        let db ← update_existing_record st.db processed unique_key ts
        .ok { st with db := db, processed_api_keys := seen,
                      updated_records_count := st.updated_records_count + 1,
                      existing_keys := discardKey st.existing_keys unique_key }

/-- One full reconciliation pass of `main.py`: snapshot the existing keys of
the academic year, fold the loop over the batch, then run the inactivation
sweep.  `Except.error ()` models an uncaught exception, which kills the
process before `conn.commit()` — such a run has no durable effect. -/
def run_pass (academic_year ts : String) (batch : List RawRecord) (db : Db) :
    Except Unit LoopState := do
  let existing := fetch_existing_keys db academic_year
  let st ← batch.foldlM (process_one academic_year ts)
    ⟨db, existing, [], 0, 0, 0⟩
  let db2 := mark_records_as_inactive st.db st.existing_keys st.processed_api_keys ts
  .ok { st with db := db2 }

end MainPy

namespace MainPy

/-- The unique key a raw record receives in `main.py`: cleaning followed by
`utils.generate_unique_key`. -/
def record_key (r : RawRecord) (academic_year : String) : Except Unit String :=
  (process_record r).map (fun p => Utils.generate_unique_key p academic_year)

/-- The key of a raw record when it survives validation and cleaning:
`some k` exactly when `main.py` would add `k` to `processed_api_keys` for
this record. -/
def vkey (academic_year : String) (r : RawRecord) : Option String :=
  match Utils.validate_student_record r, process_record r with
  | Option.none, Except.ok p => some (Utils.generate_unique_key p academic_year)
  | _, _ => Option.none

end MainPy

namespace SyncStudents

/-- The unique-key computation of `sync_students.insert_or_update_record`:
the grade is cleaned first (a raise there aborts), and the key is built from
`school_name`, `student_id` and the academic year only. -/
def insert_or_update_key (record : RawRecord) (academic_year : String) :
    Except Unit String := do
  let _grade_clean ← convert_grade_namePy (pyGet record.grade_name)
  generate_unique_key (pyGet record.school_name) (pyGet record.student_id) academic_year

end SyncStudents

/-! Concrete inputs used by the counterexamples and witnesses below. -/

/-- A fully valid raw record (school ABC, student S1, grade `GRADE I`). -/
def exRecGradeI : RawRecord :=
  ⟨some (.str "ABC"), some (.str "Active"), some (.str "GRADE I"),
   some (.str "John Doe"), some (.str "S1"), some (.str "Male"),
   some (.str "A")⟩

/-- The same record with only the grade changed to `GRADE II`. -/
def exRecGradeII : RawRecord := { exRecGradeI with grade_name := some (.str "GRADE II") }

/-- The same record with only the grade changed to `Jr.KG`. -/
def exRecJrKG : RawRecord := { exRecGradeI with grade_name := some (.str "Jr.KG") }

/-- The same record with the `student_id` key missing entirely. -/
def exRecNoSid : RawRecord := { exRecGradeI with student_id := Option.none }

/-- The same record with `student_id` present but holding the int `0`
(falsy, though of a type the validator's type check accepts). -/
def exRecSidZero : RawRecord := { exRecGradeI with student_id := some (.int 0) }

/-- A stored row for key `K2025` whose five mutable columns match what the
pipeline stores for `exRecGradeI`, except that `status` is SQL NULL. -/
def exRowNullStatus : Database.Row :=
  { school_name := some "ABC", status := Option.none,
    grade_name := some "GRADE 1", student_name := some "John Doe",
    student_id := some "S1", gender := some "M", division_name := some "A",
    academic_year := "2025-2026", unique_key := "K2025", timestamp := "t0" }

/-- A processed record whose cleaned values coincide with
`exRowNullStatus` on every mutable column except `status`, which cleans to
the empty string. -/
def exProcEmptyStatus : ProcRecord :=
  ⟨.str "ABC", .str "", .str "GRADE 1", .str "John Doe", .str "S1",
   .str "M", .str "A"⟩

/-- A processed record with all-new values (used to exercise the INSERT
path). -/
def exProcInsert : ProcRecord :=
  ⟨.str "ABC", .str "Active", .str "GRADE 1", .str "John Doe", .str "S1",
   .str "M", .str "A"⟩

/-- The empty store. -/
def emptyDb : Database.Db := ⟨[], []⟩

/-- Success test for a modelled Python call (`true` iff no exception was
raised). -/
def pyOk {α : Type} : Except Unit α → Bool
  | .ok _ => true
  | .error _ => false

namespace Database

/-- The row update performed by the inactivation sweep on a flipped row. -/
def inactivateRow (ts : String) (r : Row) : Row :=
  { r with status := some "Inactive", timestamp := ts }

/-- Whether the sweep flips the row stored under this key: the row exists
and its status is non-NULL and different from `"Inactive"`. -/
def flipsKey (db : Db) (k : String) : Bool :=
  match rowForD db.rows k with
  | some row => sqlNeInactive row.status
  | Option.none => false

/-- The stored status of the row under this key. -/
def statusOf (db : Db) (k : String) : Option String :=
  (rowForD db.rows k).bind Row.status

/-- The INACTIVATE history entry the sweep writes for this key. -/
def inactivateEntry (db : Db) (ts k : String) : HistoryEntry :=
  ⟨k, "INACTIVATE", some "status", statusOf db k, some "Inactive", ts⟩

end Database

namespace Database

/-- The incoming record's five comparison images coincide with the stored
row's, so `update_existing_record` detects no change.  `g`, `n`, `d` are
the outputs of the grade/name/division cleaners on the record. -/
def rowAgrees (row : Row) (record : ProcRecord) (g n : String)
    (d : Option String) : Prop :=
  cmpStr row.status = pyStr (Utils.trim_string record.status) ∧
  cmpStr row.grade_name = g ∧
  cmpStr row.student_name = n ∧
  cmpStr row.gender = pyStr record.gender ∧
  cmpStr row.division_name = cmpStr d

end Database

namespace MainPy

/-- The first record of the batch that survives validation and cleaning
with this unique key. -/
def firstWith (year : String) (batch : List RawRecord) (k : String) :
    Option RawRecord :=
  batch.find? (fun r => decide (vkey year r = some k))

/-- Cleaner success plus no-change agreement of a stored row against a
processed record. -/
def agreesClean (row : Database.Row) (p : ProcRecord) : Prop :=
  ∃ g n d, Utils.convert_grade_namePy p.grade_name = Except.ok g ∧
    Utils.clean_student_namePy p.student_name = Except.ok n ∧
    Utils.extract_divisionPy p.division_name = Except.ok d ∧
    Database.rowAgrees row p g n d

/-- The invariant the reconciliation loop maintains, used by the
idempotence analysis: `done` is the batch segment already folded into the
state. -/
def Inv (year : String) (batch : List RawRecord) (db0 : Database.Db)
    (done : List RawRecord) (st : LoopState) : Prop :=
  (∀ k, k ∈ st.processed_api_keys ↔ ∃ r ∈ done, vkey year r = some k) ∧
  (∀ k, k ∈ st.existing_keys ↔
    (k ∈ Database.fetch_existing_keys db0 year ∧
     k ∉ st.processed_api_keys)) ∧
  st.existing_keys.Nodup ∧
  (st.db.rows.map Database.Row.unique_key).Nodup ∧
  (∀ k, k ∉ st.processed_api_keys →
    Database.rowForD st.db.rows k = Database.rowForD db0.rows k) ∧
  (∀ k, k ∈ st.processed_api_keys →
    ∃ row, Database.rowForD st.db.rows k = some row ∧
      (row.academic_year = year →
        ∃ r₀ p, firstWith year batch k = some r₀ ∧
          process_record r₀ = Except.ok p ∧ agreesClean row p))

end MainPy

/-- Rows `K1`, `K2`, `K3` of the inactivation example: same shape, distinct
keys, all with status `"Active"`. -/
def exRowK (k : String) : Database.Row :=
  { school_name := some "ABC", status := some "Active",
    grade_name := some "GRADE 1", student_name := some "John Doe",
    student_id := some "S1", gender := some "M", division_name := some "A",
    academic_year := "2025-2026", unique_key := k, timestamp := "t0" }

/-- A store holding exactly the keys `K1`, `K2`, `K3`. -/
def exDb3 : Database.Db := ⟨[exRowK "K1", exRowK "K2", exRowK "K3"], []⟩

/-! ## Theorems -/

theorem cmpStr_storeVal (v : PyVal) : cmpStr (storeVal v) = pyStr v := by
  cases v <;> rfl

/-- Claim C5: `normalizeGrade` (the canonical grade normalizer, implemented
by `sync_students.convert_grade_name`) maps `"GRADE iv"` to `"GRADE 4"`,
`"Jr.KG"` to `"JR.KG"`, and `"GRADE XI"` to itself — the token `XI` is
absent from the Roman-numeral table and is echoed uppercased. -/
theorem C5_grade_normalization_examples :
    SyncStudents.convert_grade_name "GRADE iv" = some "GRADE 4" ∧
    SyncStudents.convert_grade_name "Jr.KG" = some "JR.KG" ∧
    SyncStudents.convert_grade_name "GRADE XI" = some "GRADE XI" := by
  refine ⟨by decide, by decide, by decide⟩

/-- Claim C6: `utils.clean_gender` trims and uppercases its string input and
returns `M` for `"MALE"`, `F` for `"FEMALE"`, and the unknown marker
(Python `None`) for every other value — never a verbatim passthrough; in
particular `"  male "` maps to `M` and `"Other"` to the unknown marker. -/
theorem C6_gender_normalization_total (s : String) :
    Utils.clean_gender s =
      (if pyUpper (pyStrip s) = "MALE" then some "M"
       else if pyUpper (pyStrip s) = "FEMALE" then some "F"
       else Option.none) ∧
    (Utils.clean_gender s = some "M" ∨ Utils.clean_gender s = some "F" ∨
      Utils.clean_gender s = Option.none) ∧
    Utils.clean_gender "  male " = some "M" ∧
    Utils.clean_gender "Other" = Option.none := by
  have h1 : Utils.clean_gender s =
      (if pyUpper (pyStrip s) = "MALE" then some "M"
       else if pyUpper (pyStrip s) = "FEMALE" then some "F"
       else Option.none) := by
    by_cases h : s = ""
    · subst h; decide
    · simp only [Utils.clean_gender, bne_iff_ne, ne_eq, h, not_false_iff, if_true]
  refine ⟨h1, ?_, by decide, by decide⟩
  rw [h1]
  split_ifs <;> simp

/-- Claim C9 counterexample: the normalizers are not total on absent input —
`utils.clean_student_name(None)` raises `TypeError` inside `re.sub`,
`utils.convert_grade_name(None)` raises inside `re.match`, and
`active_student_data_yearly.extract_division(None)` raises inside
`re.search`; none of them degrades to a safe default. -/
theorem C9_counterexample_absent_input_raises :
    Utils.clean_student_namePy PyVal.none = Except.error () ∧
    Utils.convert_grade_namePy PyVal.none = Except.error () ∧
    Yearly.extract_divisionPy PyVal.none = Except.error () :=
  ⟨rfl, rfl, rfl⟩

/-- Claim C9 (amended): every Field Normalizer is total on string inputs
(no string argument ever raises), and `utils.clean_gender` /
`utils.extract_division` / `sync_students.convert_grade_name` also accept
absent input, returning the absent marker; but `utils.clean_student_name`,
`utils.convert_grade_name` and `active_student_data_yearly.extract_division`
raise `TypeError` on absent input instead of degrading to a default. -/
theorem C9_amended_normalizer_totality :
    (∀ s : String,
      pyOk (Utils.clean_student_namePy (PyVal.str s)) = true ∧
      pyOk (Utils.convert_grade_namePy (PyVal.str s)) = true ∧
      pyOk (Utils.clean_genderPy (PyVal.str s)) = true ∧
      pyOk (Utils.extract_divisionPy (PyVal.str s)) = true ∧
      pyOk (Yearly.extract_divisionPy (PyVal.str s)) = true ∧
      pyOk (SyncStudents.convert_grade_namePy (PyVal.str s)) = true) ∧
    Utils.clean_genderPy PyVal.none = Except.ok Option.none ∧
    Utils.extract_divisionPy PyVal.none = Except.ok Option.none ∧
    SyncStudents.convert_grade_namePy PyVal.none = Except.ok Option.none ∧
    pyOk (Utils.clean_student_namePy PyVal.none) = false ∧
    pyOk (Utils.convert_grade_namePy PyVal.none) = false ∧
    pyOk (Yearly.extract_divisionPy PyVal.none) = false :=
  ⟨fun _ => ⟨rfl, rfl, rfl, rfl, rfl, rfl⟩, rfl, rfl, rfl, rfl, rfl, rfl⟩

/-- Claim C10: because `utils.trim_string` returns non-string values
unchanged and validation requires the trimmed value to be truthy, a
required field holding a falsy non-string value (e.g. `student_id = 0`) is
rejected with the missing-or-empty error, even though the later type check
accepts ints; consequently every record accepted by
`utils.validate_student_record` has a present, truthy value in all seven
required fields. -/
theorem C10_validator_truthiness (r : RawRecord) :
    (∀ f v, f ∈ Utils.required_fields → r.get f = some v →
      pyTruthy (Utils.trim_string v) = false →
      ∃ g, g ∈ Utils.required_fields ∧ Utils.fieldPresentTruthy r g = false ∧
        Utils.validate_student_record r =
          some ("Missing or empty required field: '" ++ g ++ "'")) ∧
    (Utils.validate_student_record r = Option.none →
      ∀ f ∈ Utils.required_fields,
        ∃ v, r.get f = some v ∧ pyTruthy (Utils.trim_string v) = true) ∧
    (∀ n : Int, Utils.trim_string (PyVal.int n) = PyVal.int n) ∧
    Utils.isStrOrInt (PyVal.int 0) = true := by
  refine ⟨?_, ?_, fun n => rfl, rfl⟩
  · intro f v hf hv htruthy
    have hp : (fun g => !(Utils.fieldPresentTruthy r g)) f = true := by
      simp only [Utils.fieldPresentTruthy, hv, htruthy, Bool.not_false]
    have hsome : (Utils.required_fields.find?
        (fun g => !(Utils.fieldPresentTruthy r g))).isSome := by
      rw [List.find?_isSome]
      exact ⟨f, hf, hp⟩
    obtain ⟨g, hg⟩ := Option.isSome_iff_exists.mp hsome
    refine ⟨g, List.mem_of_find?_eq_some hg, ?_, ?_⟩
    · have := List.find?_some hg
      simpa using this
    · unfold Utils.validate_student_record
      rw [hg]
  · intro hok f hf
    have hfind : Utils.required_fields.find?
        (fun g => !(Utils.fieldPresentTruthy r g)) = Option.none := by
      unfold Utils.validate_student_record at hok
      cases hfind : Utils.required_fields.find?
          (fun g => !(Utils.fieldPresentTruthy r g)) with
      | some g => rw [hfind] at hok; exact absurd hok (by simp)
      | none => rfl
    have htruthy : Utils.fieldPresentTruthy r f = true := by
      have := List.find?_eq_none.mp hfind f hf
      simpa using this
    unfold Utils.fieldPresentTruthy at htruthy
    cases hv : r.get f with
    | none => rw [hv] at htruthy; exact absurd htruthy (by simp)
    | some v => rw [hv] at htruthy; exact ⟨v, rfl, htruthy⟩

/-- Claim C10 witness: the record with `student_id = 0` is rejected with
the missing-or-empty error for `student_id`. -/
theorem C10_validator_truthiness_witness :
    Utils.validate_student_record exRecSidZero =
      some "Missing or empty required field: 'student_id'" ∧
    (∃ g, g ∈ Utils.required_fields ∧
      Utils.fieldPresentTruthy exRecSidZero g = false ∧
      Utils.validate_student_record exRecSidZero =
        some ("Missing or empty required field: '" ++ g ++ "'")) :=
  ⟨by decide,
   (C10_validator_truthiness exRecSidZero).1 "student_id" (PyVal.int 0)
     (by decide) rfl (by decide)⟩

/-- Claim C1 counterexample: two raw records identical except in
`grade_name` (`GRADE I` vs `GRADE II`), processed by `main.py` in the same
academic year, receive different unique keys from
`utils.generate_unique_key` — the key produced by the reconciliation
pipeline contains the converted grade. -/
theorem C1_counterexample_main_key_depends_on_grade :
    exRecGradeII = { exRecGradeI with grade_name := some (PyVal.str "GRADE II") } ∧
    MainPy.record_key exRecGradeI "2025-2026" =
      Except.ok "ABC_S1_2025-2026_GRADE 1" ∧
    MainPy.record_key exRecGradeII "2025-2026" =
      Except.ok "ABC_S1_2025-2026_GRADE 2" ∧
    ("ABC_S1_2025-2026_GRADE 1" : String) ≠ "ABC_S1_2025-2026_GRADE 2" :=
  ⟨rfl, rfl, rfl, by decide⟩

/-- Claim C1 (amended): for the grade-free key variant
(`sync_students.generate_unique_key`, as called by
`insert_or_update_record`), two raw records that agree on `school_name` and
`student_id`, processed in the same academic year, always receive the same
unique key — the key is a function of `school_name`, `student_id` and
`academic_year` only, regardless of `grade_name`. -/
theorem C1_sync_key_ignores_grade (r₁ r₂ : RawRecord) (year k₁ k₂ : String)
    (hschool : r₁.school_name = r₂.school_name)
    (hsid : r₁.student_id = r₂.student_id)
    (h₁ : SyncStudents.insert_or_update_key r₁ year = Except.ok k₁)
    (h₂ : SyncStudents.insert_or_update_key r₂ year = Except.ok k₂) :
    k₁ = k₂ := by
  unfold SyncStudents.insert_or_update_key at h₁ h₂
  cases hg₁ : SyncStudents.convert_grade_namePy (pyGet r₁.grade_name) with
  | error u => rw [hg₁] at h₁; exact absurd h₁ (by simp [Bind.bind, Except.bind])
  | ok g₁ =>
  cases hg₂ : SyncStudents.convert_grade_namePy (pyGet r₂.grade_name) with
  | error u => rw [hg₂] at h₂; exact absurd h₂ (by simp [Bind.bind, Except.bind])
  | ok g₂ =>
  rw [hg₁] at h₁
  rw [hg₂] at h₂
  simp only [Bind.bind, Except.bind] at h₁ h₂
  rw [hschool, hsid] at h₁
  exact Except.ok.inj (h₁.symm.trans h₂)

/-- Claim C1 witness: a record with `GRADE I` and the same record with
`Jr.KG` receive the same grade-free key. -/
theorem C1_sync_key_ignores_grade_witness :
    SyncStudents.insert_or_update_key exRecGradeI "2025-2026" =
      Except.ok "ABC_S1_2025-2026" ∧
    SyncStudents.insert_or_update_key exRecJrKG "2025-2026" =
      Except.ok "ABC_S1_2025-2026" ∧
    ("ABC_S1_2025-2026" : String) = "ABC_S1_2025-2026" :=
  ⟨rfl, rfl,
   C1_sync_key_ignores_grade exRecGradeI exRecJrKG "2025-2026" _ _ rfl rfl rfl rfl⟩

/-- Claim C4 counterexample: the change detector does not treat the empty
string as equal to an absent value.  A stored row whose `status` is SQL
NULL, diffed against an incoming record whose cleaned `status` is `""`
(while every other compared field coincides), produces one UPDATE history
entry `(status, NULL, "")` and one UPDATE write — although old and new
differ only between absent and the empty string. -/
theorem C4_counterexample_empty_vs_null :
    cmpStr Option.none = "None" ∧ cmpStr (some "") = "" ∧
    Database.update_existing_record ⟨[exRowNullStatus], []⟩ exProcEmptyStatus
        "K2025" "t1" =
      Except.ok
        ⟨[{ exRowNullStatus with status := some "", timestamp := "t1" }],
         [⟨"K2025", "UPDATE", some "status", Option.none, some "", "t1"⟩]⟩ :=
  ⟨rfl, rfl, rfl⟩

/-- Claim C4 (amended): when diffing an incoming record against a stored
record, both sides are coerced through Python `str()` before the equality
test, which identifies an absent value with the literal string `"None"`
(both map to `"None"`), so no change tuple arises when old and new differ
only between absent and `"None"`; the empty string, however, maps to `""`
and is distinguished from absent/`"None"`.  No tuple is produced exactly
when every compared field has equal canonical images. -/
theorem C4_change_comparison_canonicalization (current : Database.CurrentDetails)
    (new_status : PyVal) (new_grade new_name : String) (new_gender : PyVal)
    (new_div : Option String) :
    (Database.changed_fields current new_status new_grade new_name new_gender new_div
        = [] ↔
      (cmpStr current.status = pyStr new_status ∧
       cmpStr current.grade_name = new_grade ∧
       cmpStr current.student_name = new_name ∧
       cmpStr current.gender = pyStr new_gender ∧
       cmpStr current.division_name = cmpStr new_div)) ∧
    cmpStr Option.none = "None" ∧ pyStr PyVal.none = "None" ∧
    cmpStr (some "None") = "None" ∧ cmpStr (some "") = "" := by
  refine ⟨?_, rfl, rfl, rfl, rfl⟩
  simp [Database.changed_fields, Database.fields_to_check, List.filter_eq_nil_iff,
    bne_iff_ne, not_not]

/-- Claim C8 counterexample: the history entry appended for a successful
INSERT has `field_changed = "New Record"`, not the null value the claim
asserts. -/
theorem C8_counterexample_insert_entry_field :
    (Database.insert_new_record emptyDb exProcInsert "K1" "2025-2026" "t1").map
        Database.Db.history =
      Except.ok
        [⟨"K1", "INSERT", some "New Record", Option.none, some "Initial Insertion", "t1"⟩] ∧
    (some "New Record" : Option String) ≠ Option.none :=
  ⟨rfl, by decide⟩

/-- Claim C8 (amended): for every record classified NEW that is successfully
inserted, exactly one history entry is appended, whose `change_type` is
INSERT, whose `field_changed` is the literal string `"New Record"` (not
null), whose `old_value` is null, and whose `new_value` is
`"Initial Insertion"`; exactly one row is appended to the table. -/
theorem C8_insert_history_shape (db : Database.Db) (record : ProcRecord)
    (key year ts : String) (db' : Database.Db)
    (hnew : ∀ r ∈ db.rows, r.unique_key ≠ key)
    (h : Database.insert_new_record db record key year ts = Except.ok db') :
    db'.history = db.history ++
      [⟨key, "INSERT", some "New Record", Option.none, some "Initial Insertion", ts⟩] ∧
    ∃ row, db'.rows = db.rows ++ [row] ∧ row.unique_key = key := by
  unfold Database.insert_new_record at h
  cases hg : Utils.convert_grade_namePy record.grade_name with
  | error u => rw [hg] at h; exact absurd h (by simp [Bind.bind, Except.bind])
  | ok g =>
  cases hn : Utils.clean_student_namePy record.student_name with
  | error u =>
      rw [hg, hn] at h; exact absurd h (by simp [Bind.bind, Except.bind])
  | ok name =>
  cases hd : Utils.extract_divisionPy record.division_name with
  | error u =>
      rw [hg, hn, hd] at h; exact absurd h (by simp [Bind.bind, Except.bind])
  | ok division =>
  rw [hg, hn, hd] at h
  have hfind : Database.rowForD db.rows key = Option.none := by
    apply List.find?_eq_none.mpr
    intro r hr
    simpa using hnew r hr
  simp only [Bind.bind, Except.bind, hfind, Option.isSome_none, Bool.false_eq_true,
    if_false, Database.log_history] at h
  cases h
  exact ⟨rfl, ⟨_, rfl, rfl⟩⟩

/-- Claim C8 witness: inserting a fresh key into the empty store appends
exactly the INSERT entry and exactly one row. -/
theorem C8_insert_history_shape_witness :
    (Database.Db.mk
      [⟨some "ABC", some "Active", some "GRADE 1", some "John Doe", some "S1",
        some "M", some "A", "2025-2026", "K1", "t1"⟩]
      [⟨"K1", "INSERT", some "New Record", Option.none, some "Initial Insertion",
        "t1"⟩]).history =
      emptyDb.history ++
        [⟨"K1", "INSERT", some "New Record", Option.none, some "Initial Insertion",
          "t1"⟩] ∧
    ∃ row,
      (Database.Db.mk
        [⟨some "ABC", some "Active", some "GRADE 1", some "John Doe", some "S1",
          some "M", some "A", "2025-2026", "K1", "t1"⟩]
        [⟨"K1", "INSERT", some "New Record", Option.none, some "Initial Insertion",
          "t1"⟩]).rows = emptyDb.rows ++ [row] ∧ row.unique_key = "K1" :=
  C8_insert_history_shape emptyDb exProcInsert "K1" "2025-2026" "t1" _
    (fun r hr => absurd hr (List.not_mem_nil r)) rfl

/-- Helper: when some required field fails the truthiness check,
`utils.validate_student_record` rejects the record, naming a required field
that fails the check (the first one in `required_fields` order). -/
theorem validate_some_of_field_false (r : RawRecord) (f : String)
    (hf : f ∈ Utils.required_fields)
    (hbad : Utils.fieldPresentTruthy r f = false) :
    ∃ g, g ∈ Utils.required_fields ∧ Utils.fieldPresentTruthy r g = false ∧
      Utils.validate_student_record r =
        some ("Missing or empty required field: '" ++ g ++ "'") := by
  have hsome : (Utils.required_fields.find?
      (fun g => !(Utils.fieldPresentTruthy r g))).isSome := by
    rw [List.find?_isSome]
    exact ⟨f, hf, by simp [hbad]⟩
  obtain ⟨g, hg⟩ := Option.isSome_iff_exists.mp hsome
  refine ⟨g, List.mem_of_find?_eq_some hg, by simpa using List.find?_some hg, ?_⟩
  unfold Utils.validate_student_record
  rw [hg]

/-- Claim C7: a raw record in which some required field is missing or trims
to the empty string is rejected by the validator (with a message naming a
failing required field), and the reconciliation loop then only increments
the skipped-invalid counter: the record produces no unique key, no insert
or update write, and no history entry. -/
theorem C7_validation_rejection (year ts : String) (st : MainPy.LoopState)
    (r : RawRecord)
    (hbad : ∃ f ∈ Utils.required_fields,
      r.get f = Option.none ∨
      ∃ s, r.get f = some (PyVal.str s) ∧ pyStrip s = "") :
    (∃ g, g ∈ Utils.required_fields ∧ Utils.fieldPresentTruthy r g = false ∧
      Utils.validate_student_record r =
        some ("Missing or empty required field: '" ++ g ++ "'")) ∧
    MainPy.process_one year ts st r =
      Except.ok { st with skipped_invalid_records_count :=
        st.skipped_invalid_records_count + 1 } := by
  obtain ⟨f, hf, hcase⟩ := hbad
  have hfalse : Utils.fieldPresentTruthy r f = false := by
    rcases hcase with hmiss | ⟨s, hs, hstrip⟩
    · simp [Utils.fieldPresentTruthy, hmiss]
    · simp [Utils.fieldPresentTruthy, hs, Utils.trim_string, pyTruthy, hstrip]
  obtain ⟨g, hg, hgfalse, hval⟩ := validate_some_of_field_false r f hf hfalse
  refine ⟨⟨g, hg, hgfalse, hval⟩, ?_⟩
  unfold MainPy.process_one
  rw [hval]

/-- Claim C7 witness: a record whose `student_id` key is missing is
rejected and only bumps the skipped counter, starting from the empty
loop state. -/
theorem C7_validation_rejection_witness :
    (∃ g, g ∈ Utils.required_fields ∧
      Utils.fieldPresentTruthy exRecNoSid g = false ∧
      Utils.validate_student_record exRecNoSid =
        some ("Missing or empty required field: '" ++ g ++ "'")) ∧
    MainPy.process_one "2025-2026" "t1" ⟨emptyDb, [], [], 0, 0, 0⟩ exRecNoSid =
      Except.ok ⟨emptyDb, [], [], 0, 0, 1⟩ :=
  C7_validation_rejection "2025-2026" "t1" ⟨emptyDb, [], [], 0, 0, 0⟩ exRecNoSid
    ⟨"student_id", by decide, Or.inl rfl⟩

namespace Database

theorem rowForD_eq_none_iff (rows : List Row) (k : String) :
    rowForD rows k = Option.none ↔ ∀ r ∈ rows, r.unique_key ≠ k := by
  unfold rowForD
  rw [List.find?_eq_none]
  constructor
  · intro h r hr
    simpa using h r hr
  · intro h r hr
    simpa using h r hr

theorem rowForD_mem {rows : List Row} {k : String} {row : Row}
    (h : rowForD rows k = some row) : row ∈ rows ∧ row.unique_key = k := by
  refine ⟨List.mem_of_find?_eq_some h, ?_⟩
  have := List.find?_some h
  simpa using this

theorem rowForD_map (rows : List Row) (f : Row → Row) (k : String)
    (hf : ∀ r, (f r).unique_key = r.unique_key) :
    rowForD (rows.map f) k = (rowForD rows k).map f := by
  unfold rowForD
  rw [List.find?_map]
  have hpred : ((fun r : Row => r.unique_key == k) ∘ f) =
      (fun r : Row => r.unique_key == k) := by
    funext r
    simp [Function.comp, hf]
  rw [hpred]

theorem keys_map (rows : List Row) (f : Row → Row)
    (hf : ∀ r, (f r).unique_key = r.unique_key) :
    (rows.map f).map Row.unique_key = rows.map Row.unique_key := by
  rw [List.map_map]
  exact List.map_congr_left (fun r _ => hf r)

theorem key_unique {rows : List Row} (hdb : (rows.map Row.unique_key).Nodup)
    {r₁ r₂ : Row} (h₁ : r₁ ∈ rows) (h₂ : r₂ ∈ rows)
    (hk : r₁.unique_key = r₂.unique_key) : r₁ = r₂ :=
  List.inj_on_of_nodup_map hdb h₁ h₂ hk

theorem rowForD_eq_some_of_mem {rows : List Row}
    (hdb : (rows.map Row.unique_key).Nodup) {row : Row} (hr : row ∈ rows) :
    rowForD rows row.unique_key = some row := by
  cases hfind : rowForD rows row.unique_key with
  | none =>
      exact absurd rfl ((rowForD_eq_none_iff rows row.unique_key).mp hfind row hr)
  | some row' =>
      obtain ⟨hmem, hkey⟩ := rowForD_mem hfind
      rw [key_unique hdb hmem hr hkey]

end Database

namespace Database

/-- Effect of one sweep iteration, under the unique-key constraint: the row
stored under the key is flipped to Inactive exactly when its status is
non-NULL and differs from `"Inactive"`, every other row is untouched, and
one INACTIVATE entry is logged exactly when the flip happened. -/
theorem mark_one_spec (ts k : String) (db : Db)
    (hdb : (db.rows.map Row.unique_key).Nodup) :
    (mark_one_inactive ts db k).rows = db.rows.map (fun r =>
      if r.unique_key == k && sqlNeInactive r.status then inactivateRow ts r
      else r) ∧
    (mark_one_inactive ts db k).history = db.history ++
      (if flipsKey db k then [inactivateEntry db ts k] else []) := by
  unfold mark_one_inactive
  cases hfind : rowForD db.rows k with
  | none =>
      have hnone := (rowForD_eq_none_iff db.rows k).mp hfind
      have hmap : db.rows.map (fun r =>
          if r.unique_key == k && sqlNeInactive r.status then inactivateRow ts r
          else r) = db.rows := by
        have heq : db.rows.map (fun r =>
            if r.unique_key == k && sqlNeInactive r.status then inactivateRow ts r
            else r) = db.rows.map id := by
          apply List.map_congr_left
          intro r hr
          have hne : (r.unique_key == k) = false := by
            simpa using hnone r hr
          simp [hne]
        rw [heq, List.map_id]
      have hflip : flipsKey db k = false := by
        simp [flipsKey, hfind]
      rw [hflip]
      exact ⟨hmap.symm, by simp⟩
  | some row =>
      obtain ⟨hmem, hkey⟩ := rowForD_mem hfind
      dsimp only
      by_cases hst : row.status = some "Inactive"
      · -- fetched status is already Inactive: the Python check fails, no action
        rw [if_neg (not_not_intro hst)]
        have hmap : db.rows.map (fun r =>
            if r.unique_key == k && sqlNeInactive r.status then inactivateRow ts r
            else r) = db.rows := by
          have heq : db.rows.map (fun r =>
              if r.unique_key == k && sqlNeInactive r.status then inactivateRow ts r
              else r) = db.rows.map id := by
            apply List.map_congr_left
            intro r hr
            by_cases hk : r.unique_key = k
            · have hrw : r = row := key_unique hdb hr hmem (hk.trans hkey.symm)
              subst hrw
              simp [hst, sqlNeInactive]
            · simp [hk]
          rw [heq, List.map_id]
        have hflip : flipsKey db k = false := by
          simp [flipsKey, hfind, hst, sqlNeInactive]
        rw [hflip]
        exact ⟨hmap.symm, by simp⟩
      · -- the Python check passes: UPDATE executes; a history entry is
        -- written iff the SQL predicate matched some row
        rw [if_pos hst]
        by_cases hany :
            (db.rows.any fun r => r.unique_key == k && sqlNeInactive r.status) = true
        · have hsql : sqlNeInactive row.status = true := by
            obtain ⟨r, hr, hpr⟩ := List.any_eq_true.mp hany
            have hpr' : r.unique_key = k ∧ sqlNeInactive r.status = true := by
              simpa using hpr
            have hrw : r = row := key_unique hdb hr hmem (hpr'.1.trans hkey.symm)
            rw [hrw] at hpr'
            exact hpr'.2
          have hflip : flipsKey db k = true := by
            simp [flipsKey, hfind, hsql]
          rw [if_pos hany, hflip]
          constructor
          · simp [log_history, inactivateRow]
          · simp [log_history, inactivateEntry, statusOf, hfind]
        · have hall : ∀ x ∈ db.rows, x.unique_key = k → sqlNeInactive x.status = false := by
            simpa using hany
          have hsql : sqlNeInactive row.status = false := hall row hmem hkey
          have hflip : flipsKey db k = false := by
            simp [flipsKey, hfind, hsql]
          rw [if_neg hany, hflip]
          constructor
          · simp [inactivateRow]
          · simp

end Database

namespace Database

theorem flip_preserves_key (ts k : String) (r : Row) :
    (if r.unique_key == k && sqlNeInactive r.status then inactivateRow ts r
     else r).unique_key = r.unique_key := by
  by_cases h : (r.unique_key == k && sqlNeInactive r.status) = true <;>
    simp [h, inactivateRow]

theorem mark_one_keys (ts k : String) (db : Db)
    (hdb : (db.rows.map Row.unique_key).Nodup) :
    (mark_one_inactive ts db k).rows.map Row.unique_key =
      db.rows.map Row.unique_key := by
  rw [(mark_one_spec ts k db hdb).1]
  exact keys_map _ _ (flip_preserves_key ts k)

theorem rowForD_mark_one_ne (ts k k' : String) (db : Db)
    (hdb : (db.rows.map Row.unique_key).Nodup) (hne : k' ≠ k) :
    rowForD (mark_one_inactive ts db k).rows k' = rowForD db.rows k' := by
  rw [(mark_one_spec ts k db hdb).1,
    rowForD_map _ _ _ (flip_preserves_key ts k)]
  cases hfind : rowForD db.rows k' with
  | none => rfl
  | some row' =>
      obtain ⟨hm, hk⟩ := rowForD_mem hfind
      have hck : (row'.unique_key == k) = false := by
        rw [hk]
        simpa using hne
      have hcond : (row'.unique_key == k && sqlNeInactive row'.status) = false := by
        simp [hck]
      simp only [Option.map_some']
      rw [if_neg (show ¬((row'.unique_key == k &&
            sqlNeInactive row'.status) = true) by simp [hcond])]

theorem flipsKey_mark_one_ne (ts k k' : String) (db : Db)
    (hdb : (db.rows.map Row.unique_key).Nodup) (hne : k' ≠ k) :
    flipsKey (mark_one_inactive ts db k) k' = flipsKey db k' := by
  unfold flipsKey
  rw [rowForD_mark_one_ne ts k k' db hdb hne]

theorem statusOf_mark_one_ne (ts k k' : String) (db : Db)
    (hdb : (db.rows.map Row.unique_key).Nodup) (hne : k' ≠ k) :
    statusOf (mark_one_inactive ts db k) k' = statusOf db k' := by
  unfold statusOf
  rw [rowForD_mark_one_ne ts k k' db hdb hne]

/-- Full characterization of the inactivation sweep over a duplicate-free
key list, under the unique-key constraint: a row is flipped to Inactive
(with the timestamp updated) exactly when its key is in the list and its
status is non-NULL and different from `"Inactive"`; the history receives
exactly one INACTIVATE entry per flipped key, carrying the old status. -/
theorem mark_fold_spec (ts : String) (keys : List String) (db : Db)
    (hkeys : keys.Nodup) (hdb : (db.rows.map Row.unique_key).Nodup) :
    ((keys.foldl (mark_one_inactive ts) db).rows = db.rows.map (fun r =>
      if keys.contains r.unique_key && sqlNeInactive r.status then
        inactivateRow ts r else r)) ∧
    ((keys.foldl (mark_one_inactive ts) db).history = db.history ++
      (keys.filter (flipsKey db)).map (inactivateEntry db ts)) := by
  induction keys generalizing db with
  | nil => constructor <;> simp
  | cons k ks ih =>
      have hk_not_ks : k ∉ ks := (List.nodup_cons.mp hkeys).1
      have hks_nodup : ks.Nodup := (List.nodup_cons.mp hkeys).2
      have hdb' : ((mark_one_inactive ts db k).rows.map Row.unique_key).Nodup := by
        rw [mark_one_keys ts k db hdb]
        exact hdb
      obtain ⟨ihr, ihh⟩ := ih (mark_one_inactive ts db k) hks_nodup hdb'
      rw [List.foldl_cons]
      constructor
      · rw [ihr, (mark_one_spec ts k db hdb).1, List.map_map]
        apply List.map_congr_left
        intro r _hr
        simp only [Function.comp]
        by_cases hrk : r.unique_key = k
        · have hbeq : (r.unique_key == k) = true := by simpa using hrk
          by_cases hsq : sqlNeInactive r.status = true
          · rw [if_pos (show (r.unique_key == k && sqlNeInactive r.status) = true by
                simp [hbeq, hsq])]
            rw [if_neg (show ¬((ks.contains (inactivateRow ts r).unique_key &&
                  sqlNeInactive (inactivateRow ts r).status) = true) by
                simp [inactivateRow, sqlNeInactive])]
            rw [if_pos (show (((k :: ks).contains r.unique_key &&
                  sqlNeInactive r.status) = true) by
                simp [List.contains_cons, hrk, hsq])]
          · have hsq' : sqlNeInactive r.status = false := by simpa using hsq
            simp only [hsq', Bool.and_false, Bool.false_eq_true, if_false]
        · have hck : (r.unique_key == k) = false := by simpa using hrk
          simp only [hck, Bool.false_and, Bool.false_eq_true, if_false,
            List.contains_cons, Bool.false_or]
      · rw [ihh, (mark_one_spec ts k db hdb).2]
        have hfilter : ks.filter (flipsKey (mark_one_inactive ts db k)) =
            ks.filter (flipsKey db) := by
          apply List.filter_congr
          intro x hx
          exact flipsKey_mark_one_ne ts k x db hdb
            (fun h => hk_not_ks (h ▸ hx))
        have hmapent : (ks.filter (flipsKey db)).map
              (inactivateEntry (mark_one_inactive ts db k) ts) =
            (ks.filter (flipsKey db)).map (inactivateEntry db ts) := by
          apply List.map_congr_left
          intro x hx
          have hxk : x ≠ k := fun h => hk_not_ks (h ▸ (List.mem_filter.mp hx).1)
          unfold inactivateEntry
          rw [statusOf_mark_one_ne ts k x db hdb hxk]
        rw [hfilter, hmapent, List.append_assoc]
        congr 1
        rw [List.filter_cons]
        by_cases hf : flipsKey db k = true
        · simp [hf]
        · simp [Bool.eq_false_iff.mpr (fun h => hf h)]

end Database

theorem contains_filter (l : List String) (p : String → Bool) (a : String) :
    (l.filter p).contains a = (l.contains a && p a) := by
  induction l with
  | nil => simp
  | cons x xs ih =>
      by_cases hpx : p x = true
      · rw [List.filter_cons, if_pos hpx]
        by_cases hax : a = x
        · subst hax
          simp [List.contains_cons, hpx, ih]
        · simp [List.contains_cons, hax, ih]
      · have hpx' : p x = false := by simpa using hpx
        rw [List.filter_cons, if_neg (by simp [hpx'])]
        by_cases hax : a = x
        · subst hax
          simp [List.contains_cons, ih, hpx']
        · simp [List.contains_cons, hax, ih]

/-- Claim C3 counterexample: a vanished key whose stored status is SQL NULL
is *not* inactivated.  Its status is not `"Inactive"`, the key is in the
snapshot and absent from the batch, yet the sweep leaves the store
completely unchanged and appends no INACTIVATE history entry — the SQL
predicate `status != 'Inactive'` does not match a NULL status. -/
theorem C3_counterexample_null_status :
    exRowNullStatus.status ≠ some "Inactive" ∧
    Database.mark_records_as_inactive ⟨[exRowNullStatus], []⟩ ["K2025"] [] "t1" =
      ⟨[exRowNullStatus], []⟩ :=
  ⟨by decide, rfl⟩

/-- Claim C3 (amended): after the batch, exactly the keys in the snapshot
and not seen in the batch whose stored status is non-NULL and not already
`"Inactive"` have their status set to `"Inactive"` with the timestamp
updated and exactly one INACTIVATE history entry each (field `status`, old
value the previous status, new value `"Inactive"`); keys whose stored
status is already `"Inactive"` — or NULL — and every key seen in the
batch are left unchanged and produce no entry. -/
theorem C3_inactivation_sweep_exact (db : Database.Db)
    (existing_keys api_keys : List String) (ts : String)
    (hex : existing_keys.Nodup)
    (hdb : (db.rows.map Database.Row.unique_key).Nodup) :
    (Database.mark_records_as_inactive db existing_keys api_keys ts).rows =
      db.rows.map (fun r =>
        if (existing_keys.contains r.unique_key &&
              !(api_keys.contains r.unique_key)) &&
            Database.sqlNeInactive r.status then
          Database.inactivateRow ts r
        else r) ∧
    (Database.mark_records_as_inactive db existing_keys api_keys ts).history =
      db.history ++
        ((existing_keys.filter (fun k => !(api_keys.contains k))).filter
          (Database.flipsKey db)).map (Database.inactivateEntry db ts) := by
  unfold Database.mark_records_as_inactive
  obtain ⟨hr, hh⟩ := Database.mark_fold_spec ts
    (existing_keys.filter (fun k => !(api_keys.contains k))) db
    (hex.filter _) hdb
  constructor
  · rw [hr]
    apply List.map_congr_left
    intro r _
    rw [contains_filter]
  · rw [hh]

/-- Claim C3 witness: snapshot `{K1, K2, K3}`, batch keys `{K1, K3}`:
exactly `K2` transitions to `"Inactive"` with one INACTIVATE entry, `K1`
and `K3` are untouched. -/
theorem C3_inactivation_sweep_exact_witness :
    (Database.mark_records_as_inactive exDb3 ["K1", "K2", "K3"] ["K1", "K3"]
        "t1").rows =
      exDb3.rows.map (fun r =>
        if ((["K1", "K2", "K3"].contains r.unique_key &&
              !(["K1", "K3"].contains r.unique_key)) &&
            Database.sqlNeInactive r.status) then
          Database.inactivateRow "t1" r
        else r) ∧
    (Database.mark_records_as_inactive exDb3 ["K1", "K2", "K3"] ["K1", "K3"]
        "t1").history =
      exDb3.history ++
        (((["K1", "K2", "K3"].filter (fun k => !(["K1", "K3"].contains k))).filter
          (Database.flipsKey exDb3)).map (Database.inactivateEntry exDb3 "t1")) ∧
    (Database.mark_records_as_inactive exDb3 ["K1", "K2", "K3"] ["K1", "K3"]
        "t1").rows =
      [exRowK "K1", { exRowK "K2" with status := some "Inactive", timestamp := "t1" },
       exRowK "K3"] ∧
    (Database.mark_records_as_inactive exDb3 ["K1", "K2", "K3"] ["K1", "K3"]
        "t1").history =
      [⟨"K2", "INACTIVATE", some "status", some "Active", some "Inactive", "t1"⟩] :=
  ⟨(C3_inactivation_sweep_exact exDb3 ["K1", "K2", "K3"] ["K1", "K3"] "t1"
      (by decide) (by decide)).1,
   (C3_inactivation_sweep_exact exDb3 ["K1", "K2", "K3"] ["K1", "K3"] "t1"
      (by decide) (by decide)).2,
   by decide, by decide⟩

namespace Database

theorem Db.ext' {a b : Db} (h1 : a.rows = b.rows) (h2 : a.history = b.history) :
    a = b := by
  cases a
  cases b
  cases h1
  cases h2
  rfl

theorem foldl_log_history_rows (l : List FieldCheck) (db : Db)
    (unique_key ts : String) :
    (l.foldl (fun d fc =>
      log_history d unique_key "UPDATE" (some fc.field) fc.old_value fc.new_store ts)
      db).rows = db.rows := by
  induction l generalizing db with
  | nil => rfl
  | cons fc l ih => rw [List.foldl_cons, ih]; rfl

theorem changed_fields_nil_iff (current : CurrentDetails) (new_status : PyVal)
    (new_grade new_name : String) (new_gender : PyVal)
    (new_div : Option String) :
    changed_fields current new_status new_grade new_name new_gender new_div = [] ↔
      (cmpStr current.status = pyStr new_status ∧
       cmpStr current.grade_name = new_grade ∧
       cmpStr current.student_name = new_name ∧
       cmpStr current.gender = pyStr new_gender ∧
       cmpStr current.division_name = cmpStr new_div) := by
  simp [changed_fields, fields_to_check, List.filter_eq_nil_iff, bne_iff_ne, not_not]

theorem rowForD_append_of_some {rows : List Row} {k : String} {row : Row}
    (tail : List Row) (h : rowForD rows k = some row) :
    rowForD (rows ++ tail) k = some row := by
  unfold rowForD at h ⊢
  rw [List.find?_append, h]
  rfl

theorem rowForD_append_of_none {rows : List Row} {k : String}
    (tail : List Row) (h : rowForD rows k = Option.none) :
    rowForD (rows ++ tail) k = rowForD tail k := by
  unfold rowForD at h ⊢
  rw [List.find?_append, h]
  rfl

theorem rowForD_singleton_self (row : Row) :
    rowForD [row] row.unique_key = some row := by
  simp [rowForD, List.find?]

theorem rowForD_singleton_ne (row : Row) (k : String)
    (h : row.unique_key ≠ k) : rowForD [row] k = Option.none := by
  have hb : (row.unique_key == k) = false := by simpa using h
  simp [rowForD, List.find?, hb]

/-- Membership in the deduplicated existing-key snapshot, under the
unique-key constraint: a key is in the snapshot exactly when its row exists
and has the requested academic year. -/
theorem mem_fetch_existing (db : Db) (year k : String)
    (hdb : (db.rows.map Row.unique_key).Nodup) :
    k ∈ fetch_existing_keys db year ↔
      ∃ row, rowForD db.rows k = some row ∧ row.academic_year = year := by
  unfold fetch_existing_keys
  rw [List.mem_dedup]
  constructor
  · intro h
    obtain ⟨row, hrow, hk⟩ := List.mem_map.mp h
    obtain ⟨hmem, hyear⟩ := List.mem_filter.mp hrow
    refine ⟨row, ?_, by simpa using hyear⟩
    rw [← hk]
    exact rowForD_eq_some_of_mem hdb hmem
  · rintro ⟨row, hfind, hyear⟩
    obtain ⟨hmem, hk⟩ := rowForD_mem hfind
    exact List.mem_map.mpr ⟨row, List.mem_filter.mpr ⟨hmem, by simpa using hyear⟩, hk⟩

end Database

namespace MainPy

theorem mem_addKey (l : List String) (k k' : String) :
    k' ∈ addKey l k ↔ (k' ∈ l ∨ k' = k) := by
  unfold addKey
  by_cases h : l.contains k = true
  · rw [if_pos h]
    have hk : k ∈ l := by simpa [List.elem_iff] using h
    constructor
    · exact Or.inl
    · rintro (hl | rfl)
      · exact hl
      · exact hk
  · rw [if_neg h]
    simp

theorem mem_discardKey (l : List String) (k k' : String) :
    k' ∈ discardKey l k ↔ (k' ∈ l ∧ k' ≠ k) := by
  unfold discardKey
  rw [List.mem_filter]
  simp

theorem nodup_discardKey (l : List String) (k : String) (h : l.Nodup) :
    (discardKey l k).Nodup := h.filter _

theorem contains_iff_mem (l : List String) (k : String) :
    l.contains k = true ↔ k ∈ l := List.elem_iff

/-- Cleaning succeeded on a raw record: the three cleaners that
`database.py` re-applies to the processed record also succeed. -/
theorem cleaners_of_process {r : RawRecord} {p : ProcRecord}
    (h : process_record r = Except.ok p) :
    (∃ g, Utils.convert_grade_namePy p.grade_name = Except.ok g) ∧
    (∃ n, Utils.clean_student_namePy p.student_name = Except.ok n) ∧
    (∃ d, Utils.extract_divisionPy p.division_name = Except.ok d) := by
  unfold process_record at h
  dsimp only at h
  cases hg : Utils.convert_grade_namePy (Utils.trim_string (pyGet r.grade_name)) with
  | error u => rw [hg] at h; exact absurd h (by simp [Bind.bind, Except.bind])
  | ok grade =>
  cases hn : Utils.clean_student_namePy (Utils.trim_string (pyGet r.student_name)) with
  | error u =>
      rw [hg, hn] at h; exact absurd h (by simp [Bind.bind, Except.bind])
  | ok name =>
  cases hge : Utils.clean_genderPy (Utils.trim_string (pyGet r.gender)) with
  | error u =>
      rw [hg, hn, hge] at h; exact absurd h (by simp [Bind.bind, Except.bind])
  | ok gender =>
  cases hd : Utils.extract_divisionPy (Utils.trim_string (pyGet r.division_name)) with
  | error u =>
      rw [hg, hn, hge, hd] at h; exact absurd h (by simp [Bind.bind, Except.bind])
  | ok division =>
  rw [hg, hn, hge, hd] at h
  simp only [Bind.bind, Except.bind] at h
  cases h
  refine ⟨⟨_, rfl⟩, ⟨_, rfl⟩, ?_⟩
  cases division with
  | none => exact ⟨Option.none, rfl⟩
  | some s => exact ⟨_, rfl⟩

theorem vkey_eq_some {year : String} {r : RawRecord} {k : String} :
    vkey year r = some k ↔
      (Utils.validate_student_record r = Option.none ∧
       ∃ p, process_record r = Except.ok p ∧
         Utils.generate_unique_key p year = k) := by
  unfold vkey
  cases hval : Utils.validate_student_record r with
  | some e => simp [hval]
  | none =>
      cases hp : process_record r with
      | error u => simp [hp]
      | ok p => simp [hp]

end MainPy

namespace Database

/-- When every compared field agrees (after the canonical `str()`
coercion), `update_existing_record` performs no write and logs nothing. -/
theorem update_existing_noop (db : Db) (p : ProcRecord) (k ts : String)
    (row : Row) (g n : String) (d : Option String)
    (hfind : rowForD db.rows k = some row)
    (hg : Utils.convert_grade_namePy p.grade_name = Except.ok g)
    (hn : Utils.clean_student_namePy p.student_name = Except.ok n)
    (hd : Utils.extract_divisionPy p.division_name = Except.ok d)
    (ha : rowAgrees row p g n d) :
    update_existing_record db p k ts = Except.ok db := by
  unfold update_existing_record get_current_record_details
  rw [hfind]
  simp only [Option.map_some']
  simp only [hg, hn, hd, Bind.bind, Except.bind]
  have hnil : changed_fields (rowDetails row) (Utils.trim_string p.status)
      g n p.gender d = [] := by
    rw [changed_fields_nil_iff]
    exact ha
  simp [hnil]

/-- General success and characterization of `update_existing_record` when
the row exists and cleaning succeeds: only the row under the key changes,
its five mutable columns end up agreeing with the incoming record, and its
identity columns (including the academic year) are untouched. -/
theorem update_existing_spec (db : Db) (p : ProcRecord) (k ts : String)
    (row : Row) (g n : String) (d : Option String)
    (hfind : rowForD db.rows k = some row)
    (hg : Utils.convert_grade_namePy p.grade_name = Except.ok g)
    (hn : Utils.clean_student_namePy p.student_name = Except.ok n)
    (hd : Utils.extract_divisionPy p.division_name = Except.ok d) :
    ∃ db', update_existing_record db p k ts = Except.ok db' ∧
      db'.rows.map Row.unique_key = db.rows.map Row.unique_key ∧
      (∀ k', k' ≠ k → rowForD db'.rows k' = rowForD db.rows k') ∧
      (∃ row', rowForD db'.rows k = some row' ∧
        row'.academic_year = row.academic_year ∧ rowAgrees row' p g n d) := by
  unfold update_existing_record get_current_record_details
  rw [hfind]
  simp only [Option.map_some']
  simp only [hg, hn, hd, Bind.bind, Except.bind]
  by_cases hnil : changed_fields (rowDetails row) (Utils.trim_string p.status)
      g n p.gender d = []
  · refine ⟨db, by simp [hnil], rfl, fun k' _ => rfl, row, hfind, rfl, ?_⟩
    have := (changed_fields_nil_iff (rowDetails row) (Utils.trim_string p.status)
      g n p.gender d).mp hnil
    exact this
  · set updater : Row → Row := fun r =>
      if r.unique_key == k then
        { r with status := storeVal (Utils.trim_string p.status)
                 grade_name := some g
                 student_name := some n
                 gender := storeVal p.gender
                 division_name := d
                 timestamp := ts }
      else r with hupdater
    have hkeyfix : ∀ r : Row, (updater r).unique_key = r.unique_key := by
      intro r
      rw [hupdater]
      by_cases hb : (r.unique_key == k) = true <;> simp [hb]
    set db1 := (changed_fields (rowDetails row) (Utils.trim_string p.status)
      g n p.gender d).foldl
      (fun d' fc => log_history d' k "UPDATE" (some fc.field) fc.old_value fc.new_store ts)
      db with hdb1
    have hrows1 : db1.rows = db.rows := foldl_log_history_rows _ db k ts
    refine ⟨{ db1 with rows := db1.rows.map updater }, by simp [hnil], ?_, ?_, ?_⟩
    · rw [hrows1]
      exact keys_map _ _ hkeyfix
    · intro k' hk'
      show rowForD (db1.rows.map updater) k' = rowForD db.rows k'
      rw [hrows1, rowForD_map _ _ _ hkeyfix]
      cases hf : rowForD db.rows k' with
      | none => rfl
      | some r' =>
          obtain ⟨hm, hkk⟩ := rowForD_mem hf
          have hb : (r'.unique_key == k) = false := by
            rw [hkk]
            simpa using hk'
          simp only [Option.map_some', hupdater, hb, Bool.false_eq_true, if_false]
    · show ∃ row', rowForD (db1.rows.map updater) k = some row' ∧
          row'.academic_year = row.academic_year ∧ rowAgrees row' p g n d
      rw [hrows1, rowForD_map _ _ _ hkeyfix, hfind]
      have hb : (row.unique_key == k) = true := by
        simp [(rowForD_mem hfind).2]
      refine ⟨updater row, rfl, ?_, ?_⟩
      · rw [hupdater]
        simp [hb]
      · rw [hupdater]
        simp only [hb, if_true]
        exact ⟨cmpStr_storeVal _, rfl, rfl, cmpStr_storeVal _, rfl⟩

end Database

namespace Database

/-- A duplicate key makes `insert_new_record` a no-op: the INSERT raises
MySQL error 1062 before `log_history` runs, and the error is caught. -/
theorem insert_new_record_dup (db : Db) (p : ProcRecord) (k year ts : String)
    (g n : String) (d : Option String)
    (hg : Utils.convert_grade_namePy p.grade_name = Except.ok g)
    (hn : Utils.clean_student_namePy p.student_name = Except.ok n)
    (hd : Utils.extract_divisionPy p.division_name = Except.ok d)
    (hfound : (rowForD db.rows k).isSome = true) :
    insert_new_record db p k year ts = Except.ok db := by
  unfold insert_new_record
  simp only [hg, hn, hd, Bind.bind, Except.bind]
  rw [if_pos hfound]

/-- A fresh key makes `insert_new_record` append exactly one row (carrying
the cleaned values, the academic year and the key) and exactly one INSERT
history entry. -/
theorem insert_new_record_new (db : Db) (p : ProcRecord) (k year ts : String)
    (g n : String) (d : Option String)
    (hg : Utils.convert_grade_namePy p.grade_name = Except.ok g)
    (hn : Utils.clean_student_namePy p.student_name = Except.ok n)
    (hd : Utils.extract_divisionPy p.division_name = Except.ok d)
    (hnone : rowForD db.rows k = Option.none) :
    ∃ row', insert_new_record db p k year ts =
        Except.ok ⟨db.rows ++ [row'], db.history ++
          [⟨k, "INSERT", some "New Record", Option.none,
            some "Initial Insertion", ts⟩]⟩ ∧
      row'.unique_key = k ∧ row'.academic_year = year ∧
      rowAgrees row' p g n d := by
  unfold insert_new_record
  simp only [hg, hn, hd, Bind.bind, Except.bind]
  rw [if_neg (by simp [hnone])]
  refine ⟨_, rfl, rfl, rfl, ?_⟩
  exact ⟨cmpStr_storeVal _, rfl, rfl, cmpStr_storeVal _, rfl⟩

end Database

namespace MainPy

/-- One loop iteration preserves the reconciliation invariant. -/
theorem pass1_step (year ts : String) (batch done l : List RawRecord)
    (db0 : Database.Db) (r : RawRecord) (st st' : LoopState)
    (hdb0 : (db0.rows.map Database.Row.unique_key).Nodup)
    (hsplit : batch = done ++ r :: l)
    (hinv : Inv year batch db0 done st)
    (hstep : process_one year ts st r = Except.ok st') :
    Inv year batch db0 (done ++ [r]) st' := by
  obtain ⟨hI1, hI2, hIex, hIdb, hIun, hIpr⟩ := hinv
  unfold process_one at hstep
  cases hval : Utils.validate_student_record r with
  | some e =>
      rw [hval] at hstep
      dsimp only at hstep
      have hst' := Except.ok.inj hstep
      subst hst'
      have hvk : vkey year r = Option.none := by
        unfold vkey
        rw [hval]
      refine ⟨?_, hI2, hIex, hIdb, hIun, hIpr⟩
      intro k
      rw [hI1 k]
      constructor
      · rintro ⟨r', hr', hk⟩
        exact ⟨r', List.mem_append_left _ hr', hk⟩
      · rintro ⟨r', hr', hk⟩
        rcases List.mem_append.mp hr' with hr' | hr'
        · exact ⟨r', hr', hk⟩
        · rw [List.mem_singleton.mp hr'] at hk
          rw [hvk] at hk
          cases hk
  | none =>
      rw [hval] at hstep
      dsimp only at hstep
      cases hp : process_record r with
      | error u =>
          rw [hp] at hstep
          exact absurd hstep (by simp [Bind.bind, Except.bind])
      | ok p =>
      rw [hp] at hstep
      simp only [Bind.bind, Except.bind] at hstep
      set k := Utils.generate_unique_key p year with hkdef
      have hvk : vkey year r = some k := by
        unfold vkey
        rw [hval, hp]
      obtain ⟨⟨g, hg⟩, ⟨n, hn⟩, ⟨d, hd⟩⟩ := cleaners_of_process hp
      -- the message identifying the first batch occurrence of a fresh key
      have hfw : k ∉ st.processed_api_keys → firstWith year batch k = some r := by
        intro hknp
        unfold firstWith
        rw [hsplit, List.find?_append]
        have h1 : done.find? (fun r' => decide (vkey year r' = some k)) =
            Option.none := by
          rw [List.find?_eq_none]
          intro x hx hpx
          exact hknp ((hI1 k).mpr ⟨x, hx, of_decide_eq_true hpx⟩)
        rw [h1]
        have h2 : (decide (vkey year r = some k)) = true := by
          simp [hvk]
        simp [List.find?, h2]
      -- seen-set update characterization, shared by all branches
      have hSeen : ∀ k', k' ∈ addKey st.processed_api_keys k ↔
          ∃ r' ∈ done ++ [r], vkey year r' = some k' := by
        intro k'
        rw [mem_addKey]
        constructor
        · rintro (hold | rfl)
          · obtain ⟨r', hr', hk'⟩ := (hI1 k').mp hold
            exact ⟨r', List.mem_append_left _ hr', hk'⟩
          · exact ⟨r, List.mem_append_right _ (List.mem_singleton_self r), hvk⟩
        · rintro ⟨r', hr', hk'⟩
          rcases List.mem_append.mp hr' with hr' | hr'
          · exact Or.inl ((hI1 k').mpr ⟨r', hr', hk'⟩)
          · rw [List.mem_singleton.mp hr'] at hk'
            rw [hvk] at hk'
            exact Or.inr (Option.some.inj hk').symm
      by_cases hc : st.existing_keys.contains k = true
      · -- key in remaining snapshot: update path
        rw [if_neg (show ¬((!st.existing_keys.contains k) = true) by
          rw [hc]; decide)] at hstep
        have hkex : k ∈ st.existing_keys := (contains_iff_mem _ _).mp hc
        obtain ⟨hkex1, hknp⟩ := (hI2 k).mp hkex
        obtain ⟨row0, hrow0find, hrow0year⟩ :=
          (Database.mem_fetch_existing db0 year k hdb0).mp hkex1
        have hfindst : Database.rowForD st.db.rows k = some row0 := by
          rw [hIun k hknp]
          exact hrow0find
        obtain ⟨db', hupd, hkeys', hother, row', hrowfind', hyear', hagrees'⟩ :=
          Database.update_existing_spec st.db p k ts row0 g n d hfindst hg hn hd
        rw [hupd] at hstep
        simp only at hstep
        have hst' := Except.ok.inj hstep
        subst hst'
        refine ⟨hSeen, ?_, nodup_discardKey _ _ hIex, ?_, ?_, ?_⟩
        · -- existing-key set characterization
          intro k'
          rw [mem_discardKey, hI2 k', mem_addKey]
          constructor
          · rintro ⟨⟨h1, h2⟩, h3⟩
            exact ⟨h1, fun hx => hx.elim h2 h3⟩
          · rintro ⟨h1, h2⟩
            exact ⟨⟨h1, fun hx => h2 (Or.inl hx)⟩, fun hx => h2 (Or.inr hx)⟩
        · -- table keys unchanged
          show (db'.rows.map Database.Row.unique_key).Nodup
          rw [hkeys']
          exact hIdb
        · -- untouched keys
          intro k' hk'
          rw [mem_addKey] at hk'
          push_neg at hk'
          show Database.rowForD db'.rows k' = Database.rowForD db0.rows k'
          rw [hother k' hk'.2, hIun k' hk'.1]
        · -- processed keys carry an agreeing row
          intro k' hk'
          rw [mem_addKey] at hk'
          rcases hk' with hold | rfl
          · obtain ⟨row'', hfind'', hprop⟩ := hIpr k' hold
            have hne : k' ≠ k := fun h => hknp (h ▸ hold)
            exact ⟨row'', by rw [hother k' hne]; exact hfind'', hprop⟩
          · refine ⟨row', hrowfind', fun _ => ⟨r, p, hfw hknp, hp, g, n, d, hg, hn, hd, hagrees'⟩⟩
      · -- key not in remaining snapshot: insert path
        have hc' : st.existing_keys.contains k = false := by
          simpa using hc
        rw [if_pos (show (!st.existing_keys.contains k) = true by
          rw [hc']; decide)] at hstep
        have hknex : k ∉ st.existing_keys := fun hm => by
          have hmc := (contains_iff_mem st.existing_keys k).mpr hm
          rw [hc'] at hmc
          exact absurd hmc (by decide)
        by_cases hfound : (Database.rowForD st.db.rows k).isSome = true
        · -- duplicate key in the table: benign skip
          rw [Database.insert_new_record_dup st.db p k year ts g n d hg hn hd hfound]
            at hstep
          simp only at hstep
          have hst' := Except.ok.inj hstep
          subst hst'
          refine ⟨hSeen, ?_, hIex, hIdb, ?_, ?_⟩
          · intro k'
            rw [hI2 k', mem_addKey]
            constructor
            · rintro ⟨h1, h2⟩
              refine ⟨h1, fun hx => ?_⟩
              rcases hx with hx | rfl
              · exact h2 hx
              · exact hknex ((hI2 k).mpr ⟨h1, h2⟩)
            · rintro ⟨h1, h2⟩
              exact ⟨h1, fun hx => h2 (Or.inl hx)⟩
          · intro k' hk'
            rw [mem_addKey] at hk'
            push_neg at hk'
            exact hIun k' hk'.1
          · intro k' hk'
            rw [mem_addKey] at hk'
            rcases hk' with hold | rfl
            · exact hIpr k' hold
            · by_cases hknp : k ∈ st.processed_api_keys
              · exact hIpr k hknp
              · obtain ⟨rowex, hrowex⟩ := Option.isSome_iff_exists.mp hfound
                refine ⟨rowex, hrowex, fun hyear => absurd ?_ hknex⟩
                have hrow0 : Database.rowForD db0.rows k = some rowex := by
                  rw [← hIun k hknp]
                  exact hrowex
                exact (hI2 k).mpr
                  ⟨(Database.mem_fetch_existing db0 year k hdb0).mpr
                    ⟨rowex, hrow0, hyear⟩, hknp⟩
        · -- fresh key: actual insert
          have hnone : Database.rowForD st.db.rows k = Option.none := by
            cases hq : Database.rowForD st.db.rows k with
            | none => rfl
            | some x => rw [hq] at hfound; simp at hfound
          obtain ⟨row', hins, hrk', hry', hag'⟩ :=
            Database.insert_new_record_new st.db p k year ts g n d hg hn hd hnone
          rw [hins] at hstep
          simp only at hstep
          have hst' := Except.ok.inj hstep
          subst hst'
          have hknotin : k ∉ st.db.rows.map Database.Row.unique_key := by
            intro hmem
            obtain ⟨x, hx, hxk⟩ := List.mem_map.mp hmem
            exact (Database.rowForD_eq_none_iff st.db.rows k).mp hnone x hx hxk
          refine ⟨hSeen, ?_, hIex, ?_, ?_, ?_⟩
          · intro k'
            rw [hI2 k', mem_addKey]
            constructor
            · rintro ⟨h1, h2⟩
              refine ⟨h1, fun hx => ?_⟩
              rcases hx with hx | rfl
              · exact h2 hx
              · exact hknex ((hI2 k).mpr ⟨h1, h2⟩)
            · rintro ⟨h1, h2⟩
              exact ⟨h1, fun hx => h2 (Or.inl hx)⟩
          · -- keys stay duplicate-free after the append
            show ((st.db.rows ++ [row']).map Database.Row.unique_key).Nodup
            rw [List.map_append]
            rw [List.nodup_append]
            refine ⟨hIdb, by simp, ?_⟩
            intro x hx
            simp only [List.map_cons, List.map_nil, List.mem_singleton]
            intro hxr
            rw [hxr] at hx
            rw [hrk'] at hx
            exact hknotin hx
          · intro k' hk'
            rw [mem_addKey] at hk'
            push_neg at hk'
            show Database.rowForD (st.db.rows ++ [row']) k' = _
            cases hq : Database.rowForD st.db.rows k' with
            | some x =>
                rw [Database.rowForD_append_of_some _ hq, ← hq]
                exact hIun k' hk'.1
            | none =>
                rw [Database.rowForD_append_of_none _ hq,
                  Database.rowForD_singleton_ne row' k'
                    (by rw [hrk']; exact fun h => hk'.2 h.symm),
                  ← hq]
                exact hIun k' hk'.1
          · intro k' hk'
            rw [mem_addKey] at hk'
            rcases hk' with hold | rfl
            · obtain ⟨row'', hfind'', hprop⟩ := hIpr k' hold
              exact ⟨row'', Database.rowForD_append_of_some _ hfind'', hprop⟩
            · by_cases hknp : k ∈ st.processed_api_keys
              · obtain ⟨row'', hfind'', hprop⟩ := hIpr k hknp
                exact ⟨row'', Database.rowForD_append_of_some _ hfind'', hprop⟩
              · refine ⟨row', ?_, fun _ => ⟨r, p, hfw hknp, hp, g, n, d, hg, hn, hd, hag'⟩⟩
                rw [Database.rowForD_append_of_none _ hnone, ← hrk']
                exact Database.rowForD_singleton_self row'

end MainPy

namespace MainPy

/-- Folding the loop over a batch suffix preserves the invariant. -/
theorem pass1_loop (year ts : String) (batch : List RawRecord)
    (db0 : Database.Db)
    (hdb0 : (db0.rows.map Database.Row.unique_key).Nodup) :
    ∀ (l done : List RawRecord) (st out : LoopState),
      batch = done ++ l →
      Inv year batch db0 done st →
      l.foldlM (process_one year ts) st = Except.ok out →
      Inv year batch db0 batch out := by
  intro l
  induction l with
  | nil =>
      intro done st out hsplit hinv hfold
      have hout : st = out := by
        simpa [List.foldlM, pure, Except.pure] using hfold
      rw [List.append_nil] at hsplit
      subst hsplit
      rw [← hout]
      exact hinv
  | cons r l ih =>
      intro done st out hsplit hinv hfold
      rw [show (r :: l).foldlM (process_one year ts) st =
          process_one year ts st r >>= fun s => l.foldlM (process_one year ts) s
        from rfl] at hfold
      cases hstep : process_one year ts st r with
      | error u =>
          rw [hstep] at hfold
          exact absurd hfold (by simp [Bind.bind, Except.bind])
      | ok st1 =>
          rw [hstep] at hfold
          simp only [Bind.bind, Except.bind] at hfold
          have hinv1 := pass1_step year ts batch done l db0 r st st1 hdb0
            hsplit hinv hstep
          exact ih (done ++ [r]) st1 out
            (by rw [List.append_assoc]; exact hsplit) hinv1 hfold

/-- The invariant holds at the loop entry state of `run_pass`. -/
theorem inv_init (year : String) (batch : List RawRecord) (db0 : Database.Db)
    (hdb0 : (db0.rows.map Database.Row.unique_key).Nodup) :
    Inv year batch db0 []
      ⟨db0, Database.fetch_existing_keys db0 year, [], 0, 0, 0⟩ := by
  refine ⟨?_, ?_, ?_, hdb0, ?_, ?_⟩
  · intro k
    simp
  · intro k
    simp
  · exact List.nodup_dedup _
  · intro k _
    rfl
  · intro k hk
    simp at hk

/-- Every valid record of a successfully folded batch cleans successfully
(an uncaught cleaning exception would have aborted the fold). -/
theorem records_ok_of_fold (year ts : String) :
    ∀ (l : List RawRecord) (st out : LoopState),
      l.foldlM (process_one year ts) st = Except.ok out →
      ∀ r ∈ l, Utils.validate_student_record r = Option.none →
        ∃ p, process_record r = Except.ok p := by
  intro l
  induction l with
  | nil =>
      intro st out _ r hr
      exact absurd hr (List.not_mem_nil r)
  | cons r0 l ih =>
      intro st out hfold r hr hval
      rw [show (r0 :: l).foldlM (process_one year ts) st =
          process_one year ts st r0 >>= fun s => l.foldlM (process_one year ts) s
        from rfl] at hfold
      cases hstep : process_one year ts st r0 with
      | error u =>
          rw [hstep] at hfold
          exact absurd hfold (by simp [Bind.bind, Except.bind])
      | ok st1 =>
          rw [hstep] at hfold
          simp only [Bind.bind, Except.bind] at hfold
          rcases List.mem_cons.mp hr with rfl | hr
          · unfold process_one at hstep
            rw [hval] at hstep
            dsimp only at hstep
            cases hp : process_record r with
            | error u =>
                rw [hp] at hstep
                exact absurd hstep (by simp [Bind.bind, Except.bind])
            | ok p => exact ⟨p, rfl⟩
          · exact ih st1 out hfold r hr hval

theorem sqlNeInactive_false_iff (o : Option String) :
    Database.sqlNeInactive o = false ↔
      (o = Option.none ∨ o = some "Inactive") := by
  cases o with
  | none => simp [Database.sqlNeInactive]
  | some st => simp [Database.sqlNeInactive]

end MainPy

namespace MainPy

/-- Postconditions of a completed reconciliation pass, used to show the
second pass is a no-op: the table keys stay duplicate-free; the seen-key
set is exactly the batch's valid keys; every valid record cleans; every
batch key has a row; a batch key's current-year row agrees with the first
batch record carrying that key; and a current-year row whose key no batch
record carries ends the pass with status Inactive or NULL. -/
theorem run_pass_post (year ts : String) (batch : List RawRecord)
    (db0 : Database.Db) (out : LoopState)
    (hdb0 : (db0.rows.map Database.Row.unique_key).Nodup)
    (hrun : run_pass year ts batch db0 = Except.ok out) :
    (out.db.rows.map Database.Row.unique_key).Nodup ∧
    (∀ k, k ∈ out.processed_api_keys ↔ ∃ r ∈ batch, vkey year r = some k) ∧
    (∀ r ∈ batch, Utils.validate_student_record r = Option.none →
      ∃ p, process_record r = Except.ok p) ∧
    (∀ k, (∃ r ∈ batch, vkey year r = some k) →
      (Database.rowForD out.db.rows k).isSome = true) ∧
    (∀ k row, (∃ r ∈ batch, vkey year r = some k) →
      Database.rowForD out.db.rows k = some row →
      row.academic_year = year →
      ∃ r₀ p, firstWith year batch k = some r₀ ∧
        process_record r₀ = Except.ok p ∧ agreesClean row p) ∧
    (∀ k row, (¬∃ r ∈ batch, vkey year r = some k) →
      Database.rowForD out.db.rows k = some row →
      row.academic_year = year →
      (row.status = some "Inactive" ∨ row.status = Option.none)) := by
  unfold run_pass at hrun
  dsimp only at hrun
  cases hfold : batch.foldlM (process_one year ts)
      ⟨db0, Database.fetch_existing_keys db0 year, [], 0, 0, 0⟩ with
  | error u =>
      rw [hfold] at hrun
      exact absurd hrun (by simp [Bind.bind, Except.bind])
  | ok stF =>
      rw [hfold] at hrun
      simp only [Bind.bind, Except.bind] at hrun
      have hout := Except.ok.inj hrun
      obtain ⟨hI1, hI2, hIex, hIdb, hIun, hIpr⟩ :=
        pass1_loop year ts batch db0 hdb0 batch [] _ stF rfl
          (inv_init year batch db0 hdb0) hfold
      have hPa := records_ok_of_fold year ts batch _ stF hfold
      set keysList := stF.existing_keys.filter
        (fun k => !(stF.processed_api_keys.contains k)) with hkeysList
      have hkeysNodup : keysList.Nodup := hIex.filter _
      obtain ⟨hrowsC, _hhistC⟩ :=
        Database.mark_fold_spec ts keysList stF.db hkeysNodup hIdb
      set flipF : Database.Row → Database.Row := fun r =>
        if keysList.contains r.unique_key && Database.sqlNeInactive r.status then
          Database.inactivateRow ts r
        else r with hflipF
      have hflipkey : ∀ r, (flipF r).unique_key = r.unique_key := by
        intro r
        rw [hflipF]
        dsimp only
        by_cases h : (keysList.contains r.unique_key &&
            Database.sqlNeInactive r.status) = true
        · rw [if_pos h]
          rfl
        · rw [if_neg h]
      have hflipyear : ∀ r, (flipF r).academic_year = r.academic_year := by
        intro r
        rw [hflipF]
        dsimp only
        by_cases h : (keysList.contains r.unique_key &&
            Database.sqlNeInactive r.status) = true
        · rw [if_pos h]
          rfl
        · rw [if_neg h]
      have hrowsOut : out.db.rows = stF.db.rows.map flipF := by
        rw [← hout]
        exact hrowsC
      have hrowForOut : ∀ k, Database.rowForD out.db.rows k =
          (Database.rowForD stF.db.rows k).map flipF := by
        intro k
        rw [hrowsOut, Database.rowForD_map _ _ _ hflipkey]
      have hprocOut : out.processed_api_keys = stF.processed_api_keys := by
        rw [← hout]
      refine ⟨?_, ?_, hPa, ?_, ?_, ?_⟩
      · rw [hrowsOut, Database.keys_map _ _ hflipkey]
        exact hIdb
      · intro k
        rw [hprocOut]
        exact hI1 k
      · intro k hk
        obtain ⟨rowL, hfindL, _⟩ := hIpr k ((hI1 k).mpr hk)
        rw [hrowForOut k, hfindL]
        rfl
      · intro k row hk hfind hyear
        have hkp : k ∈ stF.processed_api_keys := (hI1 k).mpr hk
        obtain ⟨rowL, hfindL, hprop⟩ := hIpr k hkp
        have hknotkeys : k ∉ keysList := by
          rw [hkeysList]
          intro hmem
          have := (List.mem_filter.mp hmem).2
          rw [(contains_iff_mem _ _).mpr hkp] at this
          exact absurd this (by decide)
        have hceq : (keysList.contains rowL.unique_key) = false := by
          have hkk := (Database.rowForD_mem hfindL).2
          rw [hkk]
          by_cases h : keysList.contains k = true
          · exact absurd ((contains_iff_mem _ _).mp h) hknotkeys
          · simpa using h
        have hfOut : Database.rowForD out.db.rows k = some rowL := by
          rw [hrowForOut k, hfindL]
          simp only [Option.map_some', hflipF, hceq, Bool.false_and,
            Bool.false_eq_true, if_false]
        rw [hfOut] at hfind
        cases hfind
        exact hprop hyear
      · intro k row hk hfind hyear
        have hknp : k ∉ stF.processed_api_keys := fun hm => hk ((hI1 k).mp hm)
        rw [hrowForOut k] at hfind
        cases hfindL : Database.rowForD stF.db.rows k with
        | none => rw [hfindL] at hfind; cases hfind
        | some rowL =>
        rw [hfindL] at hfind
        have hrowval : flipF rowL = row := Option.some.inj hfind
        have hyearL : rowL.academic_year = year := by
          rw [← hyear, ← hrowval, hflipyear]
        have hfind0 : Database.rowForD db0.rows k = some rowL := by
          rw [← hIun k hknp]
          exact hfindL
        have hkex1 : k ∈ Database.fetch_existing_keys db0 year :=
          (Database.mem_fetch_existing db0 year k hdb0).mpr ⟨rowL, hfind0, hyearL⟩
        have hkexF : k ∈ stF.existing_keys := (hI2 k).mpr ⟨hkex1, hknp⟩
        have hkkeys : k ∈ keysList := by
          rw [hkeysList]
          refine List.mem_filter.mpr ⟨hkexF, ?_⟩
          have h' : stF.processed_api_keys.contains k = false := by
            by_cases h : stF.processed_api_keys.contains k = true
            · exact absurd ((contains_iff_mem _ _).mp h) hknp
            · simpa using h
          show (!stF.processed_api_keys.contains k) = true
          rw [h']
          decide
        have hceq : (keysList.contains rowL.unique_key) = true := by
          rw [(Database.rowForD_mem hfindL).2]
          exact (contains_iff_mem _ _).mpr hkkeys
        by_cases hsq : Database.sqlNeInactive rowL.status = true
        · have hcond : (keysList.contains rowL.unique_key &&
              Database.sqlNeInactive rowL.status) = true := by
            rw [hceq, hsq]
            decide
          have hflipped : flipF rowL = Database.inactivateRow ts rowL := by
            simp only [hflipF]
            split
            · rfl
            · next hfalse => exact absurd hcond hfalse
          rw [hflipped] at hrowval
          rw [← hrowval]
          exact Or.inl rfl
        · have hsq' : Database.sqlNeInactive rowL.status = false := by
            simpa using hsq
          have hfixed : flipF rowL = rowL := by
            simp only [hflipF]
            split
            · next htrue =>
                rw [hsq', Bool.and_false] at htrue
                exact absurd htrue (by decide)
            · rfl
          rw [hfixed] at hrowval
          rw [← hrowval]
          rcases (sqlNeInactive_false_iff rowL.status).mp hsq' with h | h
          · exact Or.inr h
          · exact Or.inl h

end MainPy

namespace Database

/-- A key whose row is already Inactive — or has NULL status — makes one
sweep iteration a strict no-op. -/
theorem mark_one_noop (ts k : String) (db : Db)
    (hdb : (db.rows.map Row.unique_key).Nodup) (row : Row)
    (hfind : rowForD db.rows k = some row)
    (hst : row.status = some "Inactive" ∨ row.status = Option.none) :
    mark_one_inactive ts db k = db := by
  obtain ⟨hrows, hhist⟩ := mark_one_spec ts k db hdb
  have hs : sqlNeInactive row.status = false := by
    rcases hst with h | h <;> rw [h] <;> rfl
  apply Db.ext'
  · rw [hrows]
    have heq : db.rows.map (fun r =>
        if r.unique_key == k && sqlNeInactive r.status then inactivateRow ts r
        else r) = db.rows.map id := by
      apply List.map_congr_left
      intro r hr
      by_cases hk : r.unique_key = k
      · have hrw : r = row :=
          key_unique hdb hr (rowForD_mem hfind).1
            (hk.trans (rowForD_mem hfind).2.symm)
        subst hrw
        rw [hs, Bool.and_false]
        simp
      · have hb : (r.unique_key == k) = false := by simpa using hk
        rw [hb, Bool.false_and]
        simp
    rw [heq, List.map_id]
  · rw [hhist]
    have hf : flipsKey db k = false := by
      unfold flipsKey
      rw [hfind]
      exact hs
    rw [hf]
    simp

theorem foldl_mark_noop (ts : String) (db : Db) (l : List String)
    (h : ∀ k ∈ l, mark_one_inactive ts db k = db) :
    l.foldl (mark_one_inactive ts) db = db := by
  induction l with
  | nil => rfl
  | cons k l ih =>
      rw [List.foldl_cons, h k (List.mem_cons_self k l)]
      exact ih (fun k' hk' => h k' (List.mem_cons_of_mem k hk'))

/-- The whole sweep is a no-op when every vanished key's row is already
Inactive or has NULL status. -/
theorem sweep_noop (ts : String) (db : Db) (existing_keys api_keys : List String)
    (hdb : (db.rows.map Row.unique_key).Nodup)
    (h : ∀ k, k ∈ existing_keys → k ∉ api_keys →
      ∃ row, rowForD db.rows k = some row ∧
        (row.status = some "Inactive" ∨ row.status = Option.none)) :
    mark_records_as_inactive db existing_keys api_keys ts = db := by
  unfold mark_records_as_inactive
  apply foldl_mark_noop
  intro k hk
  obtain ⟨hke, hknapi⟩ := List.mem_filter.mp hk
  have hknapi' : k ∉ api_keys := by
    intro hm
    have hc : api_keys.contains k = true := (List.elem_iff).mpr hm
    rw [hc] at hknapi
    exact absurd hknapi (by decide)
  obtain ⟨row, hfind, hst⟩ := h k hke hknapi'
  exact mark_one_noop ts k db hdb row hfind hst

end Database

namespace MainPy

/-- Second-pass loop: starting from the state a completed pass left behind,
folding the same batch never touches the store and ends with the same
seen/existing key bookkeeping. -/
theorem pass2_loop (year ts : String) (batch : List RawRecord)
    (db1 : Database.Db)
    (hdb1 : (db1.rows.map Database.Row.unique_key).Nodup)
    (hPa : ∀ r ∈ batch, Utils.validate_student_record r = Option.none →
      ∃ p, process_record r = Except.ok p)
    (hPc : ∀ k, (∃ r ∈ batch, vkey year r = some k) →
      (Database.rowForD db1.rows k).isSome = true)
    (hPd : ∀ k row, (∃ r ∈ batch, vkey year r = some k) →
      Database.rowForD db1.rows k = some row → row.academic_year = year →
      ∃ r₀ p, firstWith year batch k = some r₀ ∧
        process_record r₀ = Except.ok p ∧ agreesClean row p) :
    ∀ (l done : List RawRecord) (st : LoopState),
      batch = done ++ l →
      st.db = db1 →
      (∀ k, k ∈ st.processed_api_keys ↔ ∃ r ∈ done, vkey year r = some k) →
      (∀ k, k ∈ st.existing_keys ↔
        (k ∈ Database.fetch_existing_keys db1 year ∧
         k ∉ st.processed_api_keys)) →
      ∃ out, l.foldlM (process_one year ts) st = Except.ok out ∧
        out.db = db1 ∧
        (∀ k, k ∈ out.processed_api_keys ↔ ∃ r ∈ batch, vkey year r = some k) ∧
        (∀ k, k ∈ out.existing_keys ↔
          (k ∈ Database.fetch_existing_keys db1 year ∧
           k ∉ out.processed_api_keys)) := by
  intro l
  induction l with
  | nil =>
      intro done st hsplit hdb hproc hex
      rw [List.append_nil] at hsplit
      subst hsplit
      exact ⟨st, rfl, hdb, hproc, hex⟩
  | cons r l ih =>
      intro done st hsplit hdb hproc hex
      have hrbatch : r ∈ batch := by
        rw [hsplit]
        exact List.mem_append_right done (List.mem_cons_self r l)
      cases hval : Utils.validate_student_record r with
      | some e =>
          have hvk : vkey year r = Option.none := by
            unfold vkey
            rw [hval]
          have hstep : process_one year ts st r = Except.ok
              { st with skipped_invalid_records_count :=
                st.skipped_invalid_records_count + 1 } := by
            unfold process_one
            rw [hval]
          obtain ⟨out, hfold, hodb, hoproc, hoex⟩ := ih (done ++ [r])
            { st with skipped_invalid_records_count :=
                st.skipped_invalid_records_count + 1 }
            (by rw [List.append_assoc]; exact hsplit) hdb
            (by
              intro k
              rw [show ({ st with skipped_invalid_records_count :=
                  st.skipped_invalid_records_count + 1 } : LoopState).processed_api_keys
                = st.processed_api_keys from rfl, hproc k]
              constructor
              · rintro ⟨r', hr', hk⟩
                exact ⟨r', List.mem_append_left _ hr', hk⟩
              · rintro ⟨r', hr', hk⟩
                rcases List.mem_append.mp hr' with hr' | hr'
                · exact ⟨r', hr', hk⟩
                · rw [List.mem_singleton.mp hr'] at hk
                  rw [hvk] at hk
                  cases hk)
            (by intro k; exact hex k)
          refine ⟨out, ?_, hodb, hoproc, hoex⟩
          rw [show (r :: l).foldlM (process_one year ts) st =
              process_one year ts st r >>= fun s => l.foldlM (process_one year ts) s
            from rfl, hstep]
          simpa [Bind.bind, Except.bind] using hfold
      | none =>
          obtain ⟨p, hp⟩ := hPa r hrbatch hval
          have hvk : vkey year r = some (Utils.generate_unique_key p year) := by
            unfold vkey
            rw [hval, hp]
          set k := Utils.generate_unique_key p year with hkdef
          obtain ⟨⟨g, hg⟩, ⟨n, hn⟩, ⟨d, hd⟩⟩ := cleaners_of_process hp
          have hSeen : ∀ k', k' ∈ addKey st.processed_api_keys k ↔
              ∃ r' ∈ done ++ [r], vkey year r' = some k' := by
            intro k'
            rw [mem_addKey]
            constructor
            · rintro (hold | rfl)
              · obtain ⟨r', hr', hk'⟩ := (hproc k').mp hold
                exact ⟨r', List.mem_append_left _ hr', hk'⟩
              · exact ⟨r, List.mem_append_right _ (List.mem_singleton_self r), hvk⟩
            · rintro ⟨r', hr', hk'⟩
              rcases List.mem_append.mp hr' with hr' | hr'
              · exact Or.inl ((hproc k').mpr ⟨r', hr', hk'⟩)
              · rw [List.mem_singleton.mp hr'] at hk'
                rw [hvk] at hk'
                exact Or.inr (Option.some.inj hk').symm
          have hfw : k ∉ st.processed_api_keys → firstWith year batch k = some r := by
            intro hknp
            unfold firstWith
            rw [hsplit, List.find?_append]
            have h1 : done.find? (fun r' => decide (vkey year r' = some k)) =
                Option.none := by
              rw [List.find?_eq_none]
              intro x hx hpx
              exact hknp ((hproc k).mpr ⟨x, hx, of_decide_eq_true hpx⟩)
            rw [h1]
            have h2 : (decide (vkey year r = some k)) = true := by
              simp [hvk]
            simp [List.find?, h2]
          by_cases hc : st.existing_keys.contains k = true
          · -- update path: the stored row agrees with the first occurrence,
            -- which is this record, so no write happens
            have hkex : k ∈ st.existing_keys := (contains_iff_mem _ _).mp hc
            obtain ⟨hkex2, hknp⟩ := (hex k).mp hkex
            obtain ⟨row, hfind, hyear⟩ :=
              (Database.mem_fetch_existing db1 year k hdb1).mp hkex2
            obtain ⟨r₀, p₀, hfw₀, hp₀, hag⟩ :=
              hPd k row ⟨r, hrbatch, hvk⟩ hfind hyear
            have hr₀ : r₀ = r := Option.some.inj (hfw₀.symm.trans (hfw hknp))
            rw [hr₀] at hp₀
            have hp₀' : p₀ = p := Except.ok.inj (hp₀.symm.trans hp)
            rw [hp₀'] at hag
            obtain ⟨g', n', d', hg', hn', hd', hra⟩ := hag
            have hfindst : Database.rowForD st.db.rows k = some row := by
              rw [hdb]
              exact hfind
            have hnoop : Database.update_existing_record st.db p k ts =
                Except.ok st.db :=
              Database.update_existing_noop st.db p k ts row g' n' d'
                hfindst hg' hn' hd' hra
            have hstep : process_one year ts st r = Except.ok
                { st with processed_api_keys := addKey st.processed_api_keys k,
                          updated_records_count := st.updated_records_count + 1,
                          existing_keys := discardKey st.existing_keys k } := by
              unfold process_one
              rw [hval]
              dsimp only
              rw [hp]
              simp only [Bind.bind, Except.bind]
              rw [if_neg (show ¬((!st.existing_keys.contains k) = true) by
                rw [hc]; decide)]
              rw [hnoop]
            obtain ⟨out, hfold, hodb, hoproc, hoex⟩ := ih (done ++ [r])
              { st with processed_api_keys := addKey st.processed_api_keys k,
                        updated_records_count := st.updated_records_count + 1,
                        existing_keys := discardKey st.existing_keys k }
              (by rw [List.append_assoc]; exact hsplit) hdb
              (by intro k'; exact hSeen k')
              (by
                intro k'
                show k' ∈ discardKey st.existing_keys k ↔ _
                rw [mem_discardKey, hex k', mem_addKey]
                constructor
                · rintro ⟨⟨h1, h2⟩, h3⟩
                  exact ⟨h1, fun hx => hx.elim h2 h3⟩
                · rintro ⟨h1, h2⟩
                  exact ⟨⟨h1, fun hx => h2 (Or.inl hx)⟩, fun hx => h2 (Or.inr hx)⟩)
            refine ⟨out, ?_, hodb, hoproc, hoex⟩
            rw [show (r :: l).foldlM (process_one year ts) st =
                process_one year ts st r >>= fun s => l.foldlM (process_one year ts) s
              from rfl, hstep]
            simpa [Bind.bind, Except.bind] using hfold
          · -- insert path: the key's row already exists, so the INSERT
            -- hits the duplicate-key guard and is skipped
            have hc' : st.existing_keys.contains k = false := by
              simpa using hc
            have hknex : k ∉ st.existing_keys := fun hm => by
              have hmc := (contains_iff_mem st.existing_keys k).mpr hm
              rw [hc'] at hmc
              exact absurd hmc (by decide)
            have hfound : (Database.rowForD st.db.rows k).isSome = true := by
              rw [hdb]
              exact hPc k ⟨r, hrbatch, hvk⟩
            have hdup : Database.insert_new_record st.db p k year ts =
                Except.ok st.db :=
              Database.insert_new_record_dup st.db p k year ts g n d hg hn hd hfound
            have hstep : process_one year ts st r = Except.ok
                { st with processed_api_keys := addKey st.processed_api_keys k,
                          new_records_count := st.new_records_count + 1 } := by
              unfold process_one
              rw [hval]
              dsimp only
              rw [hp]
              simp only [Bind.bind, Except.bind]
              rw [if_pos (show (!st.existing_keys.contains k) = true by
                rw [hc']; decide)]
              rw [hdup]
            obtain ⟨out, hfold, hodb, hoproc, hoex⟩ := ih (done ++ [r])
              { st with processed_api_keys := addKey st.processed_api_keys k,
                        new_records_count := st.new_records_count + 1 }
              (by rw [List.append_assoc]; exact hsplit) hdb
              (by intro k'; exact hSeen k')
              (by
                intro k'
                show k' ∈ st.existing_keys ↔ _
                rw [hex k', mem_addKey]
                constructor
                · rintro ⟨h1, h2⟩
                  refine ⟨h1, fun hx => ?_⟩
                  rcases hx with hx | rfl
                  · exact h2 hx
                  · exact hknex ((hex k).mpr ⟨h1, h2⟩)
                · rintro ⟨h1, h2⟩
                  exact ⟨h1, fun hx => h2 (Or.inl hx)⟩)
            refine ⟨out, ?_, hodb, hoproc, hoex⟩
            rw [show (r :: l).foldlM (process_one year ts) st =
                process_one year ts st r >>= fun s => l.foldlM (process_one year ts) s
              from rfl, hstep]
            simpa [Bind.bind, Except.bind] using hfold

end MainPy

/-- Claim C2: reconciliation is idempotent.  If one pass of `main.py` over
batch `B` starting from store state `S` (whose unique-key constraint holds)
completed and committed, then a second pass over the same batch starting
from the resulting store performs zero insert writes, zero update writes,
zero status-to-Inactive transitions, and appends zero history rows: the
resulting table rows and history are identical to what the first pass
left (so in particular no row, timestamp, status or history entry
changes). -/
theorem C2_reconciliation_idempotent (year ts1 ts2 : String)
    (batch : List RawRecord) (db : Database.Db) (out1 : MainPy.LoopState)
    (hdb : (db.rows.map Database.Row.unique_key).Nodup)
    (h1 : MainPy.run_pass year ts1 batch db = Except.ok out1) :
    ∃ out2, MainPy.run_pass year ts2 batch out1.db = Except.ok out2 ∧
      out2.db.rows = out1.db.rows ∧ out2.db.history = out1.db.history := by
  obtain ⟨hPb, hP0, hPa, hPc, hPd, hPe⟩ :=
    MainPy.run_pass_post year ts1 batch db out1 hdb h1
  obtain ⟨outF, hfold, hodb, hoproc, hoex⟩ :=
    MainPy.pass2_loop year ts2 batch out1.db hPb hPa hPc hPd batch []
      ⟨out1.db, Database.fetch_existing_keys out1.db year, [], 0, 0, 0⟩
      rfl rfl (by intro k; simp) (by intro k; simp)
  have hsweep : Database.mark_records_as_inactive outF.db outF.existing_keys
      outF.processed_api_keys ts2 = out1.db := by
    rw [hodb]
    apply Database.sweep_noop ts2 out1.db _ _ hPb
    intro k hke hknapi
    obtain ⟨hkex2, hknp⟩ := (hoex k).mp hke
    obtain ⟨row, hfind, hyear⟩ :=
      (Database.mem_fetch_existing out1.db year k hPb).mp hkex2
    have hnotbatch : ¬∃ r ∈ batch, MainPy.vkey year r = some k :=
      fun hex2 => hknp ((hoproc k).mpr hex2)
    exact ⟨row, hfind, hPe k row hnotbatch hfind hyear⟩
  refine ⟨{ outF with db := out1.db }, ?_, rfl, rfl⟩
  unfold MainPy.run_pass
  dsimp only
  rw [hfold]
  simp only [Bind.bind, Except.bind]
  rw [hsweep]

/-- Claim C2 witness: one fresh record inserted into the empty store, then
the same batch replayed — the second pass leaves rows and history exactly
as the first pass left them. -/
theorem C2_reconciliation_idempotent_witness :
    ∃ out1, MainPy.run_pass "2025-2026" "t1" [exRecGradeI] emptyDb =
        Except.ok out1 ∧
      ∃ out2, MainPy.run_pass "2025-2026" "t2" [exRecGradeI] out1.db =
          Except.ok out2 ∧
        out2.db.rows = out1.db.rows ∧ out2.db.history = out1.db.history :=
  ⟨_, rfl,
   C2_reconciliation_idempotent "2025-2026" "t1" "t2" [exRecGradeI] emptyDb _
     (by simp [emptyDb]) rfl⟩
